import Mathlib

/-!
Verification of the Line Allocation & Message Routing Engine.

The definitions below are a shallow embedding of the TypeScript services:
`LinesService` (assignOperatorToLine, unassignOperatorFromLine,
handleBannedLine, distributeInboundMessage), `WebsocketGateway`
(findAvailableLineForOperator, reallocateLineForOperator,
recoverAndRetryMessage / the dispatch skeleton of handleSendMessage) and
`ConversationsService` (tabulateConversation).  The Prisma store is modelled
as an explicit state record `St`; each Prisma query/mutation is translated to
the corresponding pure list operation, and each serializable transaction to a
single atomic step (an `Except` whose error case leaves the state unchanged).
JavaScript truthiness on nullable numeric columns (`if (x)`) is modelled by
`truthyInt` / `truthyNat` (null and 0 are falsy).
-/

namespace OficialVend

/-- A row of `linesStock`: id, phone, lineStatus ("active" / "ban" / ...),
nullable segment tag, legacy `linkedTo` pointer to the primary operator. -/
structure Line where
  id : Nat
  phone : String
  lineStatus : String
  segment : Option Int
  linkedTo : Option Nat
deriving Repr, DecidableEq

/-- A row of `user`: id, name, role ("operator" / ...), presence status
("Online" / "Offline"), nullable segment, legacy denormalized `line` field. -/
structure User where
  id : Nat
  name : String
  role : String
  status : String
  segment : Option Int
  line : Option Nat
deriving Repr, DecidableEq

/-- A row of the `lineOperator` link table: (lineId, userId). -/
structure LineOperator where
  lineId : Nat
  userId : Nat
deriving Repr, DecidableEq

/-- A row of `conversation`.  `tabulation = none` means the conversation is
open; `some (-1)` is the force-closed sentinel. -/
structure Conversation where
  id : Nat
  contactPhone : String
  segment : Option Int
  userName : String
  userLine : Option Nat
  userId : Option Nat
  message : String
  sender : String
  tabulation : Option Int
  datetime : Nat
deriving Repr, DecidableEq

/-- A row of `segment` (only id and name are consulted by the core). -/
structure Seg where
  id : Int
  name : String
deriving Repr, DecidableEq

/-- The transactional store plus the gateway's in-memory presence data:
`waitingQueue` holds `operatorWaitingQueue` rows (userId, createdAt),
`connTime` the `operatorConnectionTime` map, `now` the clock (`Date.now()`). -/
structure St where
  lines : List Line
  users : List User
  lineOperators : List LineOperator
  conversations : List Conversation
  segments : List Seg
  waitingQueue : List (Nat × Nat)
  connTime : List (Nat × Nat)
  now : Nat
deriving Repr, DecidableEq

/-- JavaScript truthiness of a nullable integer column: null and 0 are falsy. -/
def truthyInt : Option Int → Bool
  | none => false
  | some v => v != 0

/-- JavaScript truthiness of a nullable id column: null and 0 are falsy. -/
def truthyNat : Option Nat → Bool
  | none => false
  | some v => v != 0

/-- `lineOperator.findMany(\x7b where: \x7b lineId \x7d \x7d)`. -/
def lineBindings (s : St) (lineId : Nat) : List LineOperator :=
  s.lineOperators.filter (fun lo => lo.lineId == lineId)

/-- `lineOperator.findMany(\x7b where: \x7b userId \x7d \x7d)`. -/
def operatorBindings (s : St) (userId : Nat) : List LineOperator :=
  s.lineOperators.filter (fun lo => lo.userId == userId)

/-- `user.findUnique(\x7b where: \x7b id \x7d \x7d)`. -/
def findUser (s : St) (userId : Nat) : Option User :=
  s.users.find? (fun u => u.id == userId)

/-- `linesStock.findUnique(\x7b where: \x7b id \x7d \x7d)`. -/
def findLine (s : St) (lineId : Nat) : Option Line :=
  s.lines.find? (fun l => l.id == lineId)

/-- `LinesService.assignOperatorToLine`: the serializable bind transaction.
Locks the line, rejects if missing / not active / already 2 operators /
already bound; deletes the operator's binding to a different line; inserts
the new binding; refreshes the legacy `user.line` field; sets `linkedTo`
when this is the first binding.  The error case models a rolled-back
transaction (no state change). -/
def assignOperatorToLine (s : St) (lineId userId : Nat) : Except String St :=
  match findLine s lineId with
  | none => .error "Linha não encontrada"
  | some line =>
    if line.lineStatus != "active" then .error "Linha não está ativa"
    else
      let currentOperators := (lineBindings s lineId).length
      if 2 ≤ currentOperators then
        .error "Linha já possui o máximo de 2 operadores vinculados"
      else if s.lineOperators.any (fun lo => lo.lineId == lineId && lo.userId == userId) then
        .error "Operador já está vinculado a esta linha"
      else
        let s1 : St :=
          match s.lineOperators.find? (fun lo => lo.userId == userId) with
          | some lo =>
            if lo.lineId != lineId then
              { s with
                lineOperators :=
                  s.lineOperators.filter (fun x => !(x.userId == userId && x.lineId == lo.lineId)) }
            else s
          | none => s
        let s2 : St := { s1 with lineOperators := s1.lineOperators ++ [⟨lineId, userId⟩] }
        let s3 : St := { s2 with
          users := s2.users.map (fun u => if u.id == userId then { u with line := some lineId } else u) }
        let s4 : St :=
          if currentOperators == 0 then
            { s3 with
              lines := s3.lines.map (fun l => if l.id == lineId then { l with linkedTo := some userId } else l) }
          else s3
        .ok s4

/-- `LinesService.unassignOperatorFromLine`: best-effort delete of the
binding, clears the legacy `user.line` field, and reassigns `linkedTo` to a
remaining bound operator (or null) when the unbound operator held it. -/
def unassignOperatorFromLine (s : St) (lineId userId : Nat) : St :=
  let s1 : St := { s with
    lineOperators := s.lineOperators.filter (fun lo => !(lo.lineId == lineId && lo.userId == userId)) }
  let s2 : St := { s1 with
    users := s1.users.map (fun u => if u.id == userId then { u with line := none } else u) }
  match findLine s2 lineId with
  | none => s2
  | some line =>
    if line.linkedTo == some userId then
      let remaining := (lineBindings s2 lineId).head?
      { s2 with
        lines := s2.lines.map (fun l =>
          if l.id == lineId then { l with linkedTo := remaining.map (·.userId) } else l) }
    else s2

/-- A capacity-affecting operation on the store. -/
inductive AllocOp where
  | bind (lineId userId : Nat)
  | unbind (lineId userId : Nat)
deriving Repr, DecidableEq

/-- Apply one allocation operation; a rejected bind leaves the state as is
(the transaction rolled back). -/
def applyAllocOp (s : St) : AllocOp → St
  | .bind lineId userId =>
    match assignOperatorToLine s lineId userId with
    | .ok t => t
    | .error _ => s
  | .unbind lineId userId => unassignOperatorFromLine s lineId userId

/-- Apply a sequence of allocation operations. -/
def applyAllocOps (s : St) (ops : List AllocOp) : St :=
  ops.foldl applyAllocOp s

/-- `ConversationsService.tabulateConversation`: `updateMany` setting
`tabulation` on every open row of the contact phone. -/
def tabulateConversation (s : St) (contactPhone : String) (tabulationId : Int) : St :=
  { s with
    conversations := s.conversations.map (fun c =>
      if c.contactPhone == contactPhone && c.tabulation == none then
        { c with tabulation := some tabulationId }
      else c) }

/-- The per-operator ranking record built by `distributeInboundMessage`. -/
structure Prio where
  operatorId : Nat
  activeConversations : Nat
  timeLogged : Nat
deriving Repr, DecidableEq

/-- `WebsocketGateway.getOperatorConnectionTime`: `map.get(userId) || null`
(a stored timestamp of 0 is falsy and becomes null). -/
def getOperatorConnectionTime (s : St) (userId : Nat) : Option Nat :=
  match (s.connTime.find? (fun e => e.1 == userId)).map (·.2) with
  | some t => if t != 0 then some t else none
  | none => none

/-- `user.findMany(\x7b role: operator, status: Online, segment \x7d)`. -/
def segmentOnlineOperators (s : St) (seg : Option Int) : List User :=
  s.users.filter (fun u => u.role == "operator" && u.status == "Online" && u.segment == seg)

/-- `conversation.count(\x7b userId, tabulation: null \x7d)`: open
conversations owned by the operator, across all lines. -/
def activeConversationCount (s : St) (userId : Nat) : Nat :=
  (s.conversations.filter (fun c => c.userId == some userId && c.tabulation == none)).length

/-- `connectionTime ? Date.now() - connectionTime : 0`. -/
def timeLoggedOf (s : St) (userId : Nat) : Nat :=
  match getOperatorConnectionTime s userId with
  | some t => s.now - t
  | none => 0

/-- One entry of `operatorPriorities` in `distributeInboundMessage`. -/
def operatorPriority (s : St) (u : User) : Prio :=
  { operatorId := u.id
    activeConversations := activeConversationCount s u.id
    timeLogged := timeLoggedOf s u.id }

/-- The `conversation.findFirst` filter used for sticky routing:
`\x7b contactPhone, userLine: lineId, tabulation: null, userId: in ids \x7d`. -/
def stickyCandidates (s : St) (lineId : Nat) (contactPhone : String) (ids : List Nat) :
    List Conversation :=
  s.conversations.filter (fun c =>
    c.contactPhone == contactPhone && c.userLine == some lineId && c.tabulation == none &&
      (match c.userId with
       | some u => ids.contains u
       | none => false))

/-- `findFirst(\x7b ..., orderBy: \x7b datetime: desc \x7d \x7d)`: the first
row of maximal datetime (list order decides ties, as the store does). -/
def latestByDatetime (l : List Conversation) : Option Conversation :=
  l.foldl
    (fun acc c =>
      match acc with
      | none => some c
      | some a => if a.datetime < c.datetime then some c else acc)
    none

/-- First element that is minimal for the strict comparison `better`; this is
the head of a stable `.sort(cmp)` for the comparator whose strict part is
`better`. -/
def selectFirstBy (better : Prio → Prio → Bool) (l : List Prio) : Option Prio :=
  l.foldl
    (fun acc p =>
      match acc with
      | none => some p
      | some b => if better p b then some p else acc)
    none

/-- The comparator of `operatorsWithCapacity.sort`: fewer active
conversations first, then longer time logged. -/
def betterPrio (a b : Prio) : Bool :=
  a.activeConversations < b.activeConversations ||
    (a.activeConversations == b.activeConversations && b.timeLogged < a.timeLogged)

/-- The comparator of `operatorPriorities.sort`: longer time logged first. -/
def longerLogged (a b : Prio) : Bool :=
  b.timeLogged < a.timeLogged

/-- The load-balancing tail of `distributeInboundMessage`: build
`operatorPriorities`, prefer operators with fewer than 5 open conversations
(fewest conversations, ties to longer time logged); if none has capacity,
take the longest-logged operator. -/
def loadBalanceSelect (s : St) (segmentOperators : List User) : Option Nat :=
  let operatorPriorities := segmentOperators.map (operatorPriority s)
  let operatorsWithCapacity := operatorPriorities.filter (fun p => p.activeConversations < 5)
  let selected :=
    if !operatorsWithCapacity.isEmpty then selectFirstBy betterPrio operatorsWithCapacity
    else selectFirstBy longerLogged operatorPriorities
  selected.map (·.operatorId)

/-- `LinesService.distributeInboundMessage`: inbound routing.  Every store
access in the source is a read (`findUnique`, `findMany`, `count`,
`findFirst`), so the returned state is the input state threaded through
unchanged. -/
def distributeInboundMessage (s : St) (lineId : Nat) (contactPhone : String) :
    Option Nat × St :=
  match findLine s lineId with
  | none => (none, s)
  | some line =>
    if !truthyInt line.segment then (none, s)
    else
      let segmentOperators := segmentOnlineOperators s line.segment
      if segmentOperators.isEmpty then (none, s)
      else
        let ids := segmentOperators.map (·.id)
        match latestByDatetime (stickyCandidates s lineId contactPhone ids) with
        | some conv =>
          if truthyNat conv.userId then (conv.userId, s)
          else (loadBalanceSelect s segmentOperators, s)
        | none => (loadBalanceSelect s segmentOperators, s)

/-- `WebsocketGateway.findAvailableLineForOperator`: scan the given candidate
lines; skip lines of a different non-null segment, full lines, lines the
operator is already on, and lines whose bound operators are not all of the
requested segment. -/
def findAvailableLineForOperator (s : St) (availableLines : List Line) (userId : Nat)
    (userSegment : Option Int) : Option Line :=
  availableLines.find? (fun line =>
    (line.segment == none || line.segment == userSegment) &&
    decide ((lineBindings s line.id).length < 2) &&
    !(s.lineOperators.any (fun lo => lo.lineId == line.id && lo.userId == userId)) &&
    ((lineBindings s line.id).isEmpty ||
      (lineBindings s line.id).all (fun lo =>
        match findUser s lo.userId with
        | some u => u.segment == userSegment
        | none => false)))

/-- `linesStock.findMany(\x7b lineStatus: active, segment \x7d)`. -/
def activeSegmentLines (s : St) (seg : Option Int) : List Line :=
  s.lines.filter (fun l => l.lineStatus == "active" && l.segment == seg)

/-- Result record of `WebsocketGateway.reallocateLineForOperator`. -/
structure ReallocResult where
  success : Bool
  oldLinePhone : Option String
  newLinePhone : Option String
  newLineId : Option Nat
  reason : Option String
deriving Repr, DecidableEq

@[simp] def ReallocResult.fail (reason : String) : ReallocResult :=
  { success := false, oldLinePhone := none, newLinePhone := none, newLineId := none
    reason := some reason }

/-- The current-line resolution of `reallocateLineForOperator`: the legacy
`operator.line` field if truthy, else the first `lineOperator` row
(`lineOperator?.lineId || null`). -/
def reallocCurrentLineId (s : St) (userId : Nat) (operator : User) : Option Nat :=
  if truthyNat operator.line then operator.line
  else
    match s.lineOperators.find? (fun lo => lo.userId == userId) with
    | some lo => if lo.lineId != 0 then some lo.lineId else none
    | none => none

/-- The unlink step of `reallocateLineForOperator`: delete the operator's
binding to the current line, when there is one. -/
def reallocUnlink (s : St) (userId : Nat) (cur : Option Nat) : St :=
  match cur with
  | some c =>
    { s with
      lineOperators := s.lineOperators.filter (fun lo => !(lo.userId == userId && lo.lineId == c)) }
  | none => s

/-- The line-search phase of `reallocateLineForOperator`: scan the
operator's segment (when truthy), then the "Padrão" (default) segment; a
default-segment hit has its segment tag rewritten to the operator's segment.
Returns the chosen line (if any) together with the store after the optional
segment rewrite.  `reallocFindDefault` is the default-segment leg. -/
def reallocFindDefault (evoFilter : List Line → Option Int → List Line) (s1 : St)
    (userId : Nat) (userSegment : Option Int) : Option Line × St :=
  match s1.segments.find? (fun sg => sg.name == "Padrão") with
  | none => (none, s1)
  | some ds =>
    match findAvailableLineForOperator s1
        (evoFilter (activeSegmentLines s1 (some ds.id)) userSegment) userId userSegment with
    | none => (none, s1)
    | some al =>
      if truthyInt userSegment then
        (some al,
          { s1 with
            lines := s1.lines.map (fun l =>
              if l.id == al.id then { l with segment := userSegment } else l) })
      else (some al, s1)

def reallocFind (evoFilter : List Line → Option Int → List Line) (s1 : St) (userId : Nat)
    (userSegment : Option Int) : Option Line × St :=
  match (if truthyInt userSegment then
      findAvailableLineForOperator s1 (evoFilter (activeSegmentLines s1 userSegment) userSegment)
        userId userSegment
    else none) with
  | some al => (some al, s1)
  | none => reallocFindDefault evoFilter s1 userId userSegment

/-- The bind phase of `reallocateLineForOperator`: no line found is a soft
failure; otherwise bind via the locking transaction and report. -/
def reallocBind (oldLinePhone : Option String) (userId : Nat) (found : Option Line × St) :
    ReallocResult × St :=
  match found with
  | (none, s2) => (.fail "Nenhuma linha disponível", s2)
  | (some availableLine, s2) =>
    match assignOperatorToLine s2 availableLine.id userId with
    | .ok s3 =>
      ({ success := true, oldLinePhone := oldLinePhone
         newLinePhone := some availableLine.phone, newLineId := some availableLine.id
         reason := none }, s3)
    | .error e => (.fail e, s2)

/-- `WebsocketGateway.reallocateLineForOperator`: drop the operator's current
binding, scan the operator's own segment for a qualifying line, then the
"Padrão" (default) segment; a line found in the default segment has its
segment tag rewritten to the operator's segment before binding.
`evoFilter` stands for the external
`controlPanelService.filterLinesByActiveEvolutions` collaborator. -/
def reallocateLineForOperator (evoFilter : List Line → Option Int → List Line)
    (s : St) (userId : Nat) (userSegment : Option Int) : ReallocResult × St :=
  match findUser s userId with
  | none => (.fail "Operador não encontrado", s)
  | some operator =>
    if operator.role != "operator" then (.fail "Operador não encontrado", s)
    else
      let currentLineId : Option Nat := reallocCurrentLineId s userId operator
      let oldLinePhone : Option String :=
        match currentLineId with
        | some cur => (findLine s cur).map (fun l => l.phone)
        | none => none
      reallocBind oldLinePhone userId
        (reallocFind evoFilter (reallocUnlink s userId currentLineId) userId userSegment)

/-- The `update(lineId, \x7b lineStatus: ban \x7d)` step of
`handleBannedLine`. -/
def bannedSetStatus (s : St) (lineId : Nat) : St :=
  { s with
    lines := s.lines.map (fun l => if l.id == lineId then { l with lineStatus := "ban" } else l) }

/-- The unlink phase of `handleBannedLine`: delete every binding of the
banned line, null the legacy `user.line` field of each of its operators, and
null the banned line's `linkedTo`. -/
def bannedUnlink (s : St) (lineId : Nat) (operatorIds : List Nat) : St :=
  let s1 : St := { s with
    lineOperators := s.lineOperators.filter (fun lo => !(lo.lineId == lineId)) }
  let s2 : St := { s1 with
    users := s1.users.map (fun u => if operatorIds.contains u.id then { u with line := none } else u) }
  { s2 with
    lines := s2.lines.map (fun l => if l.id == lineId then { l with linkedTo := none } else l) }

/-- The inline replacement-line scan of `handleBannedLine`: among active
lines of the banned line's segment, the first with fewer than 2 operators
whose bound operators (if any, and if the evicted operator has a truthy
segment) are all of the evicted operator's segment. -/
def bannedReplacementScan (s : St) (lineSegment : Option Int) (operator : User) : Option Line :=
  (s.lines.filter (fun l => l.lineStatus == "active" && l.segment == lineSegment)).find?
    (fun l =>
      decide ((lineBindings s l.id).length < 2) &&
      (!(decide (0 < (lineBindings s l.id).length) && truthyInt operator.segment) ||
        (lineBindings s l.id).all (fun lo =>
          match findUser s lo.userId with
          | some u => u.segment == operator.segment
          | none => false)))

/-- `operatorWaitingQueue.upsert(\x7b where: userId, update: createdAt,
create: ... \x7d)`. -/
def waitingQueueUpsert (s : St) (userId : Nat) : St :=
  if s.waitingQueue.any (fun e => e.1 == userId) then
    { s with
      waitingQueue := s.waitingQueue.map (fun e => if e.1 == userId then (e.1, s.now) else e) }
  else
    { s with waitingQueue := s.waitingQueue ++ [(userId, s.now)] }

/-- One iteration of the per-operator loop of `handleBannedLine`: skip
operators that vanished or already re-acquired a line; otherwise either
rebind to a replacement line and repoint that operator's open conversations
of the banned line at it, or force-close those conversations with the -1
sentinel, notify, and enqueue the operator.  `none` models an uncaught
exception from the bind (which would abort the handler). -/
def processBannedOperator (s : St) (bannedLineId : Nat) (bannedSegment : Option Int)
    (operatorId : Nat) : Option St :=
  match findUser s operatorId with
  | none => some s
  | some operator =>
    if !(operatorBindings s operatorId).isEmpty then some s
    else
      match bannedReplacementScan s bannedSegment operator with
      | some availableLine =>
        match assignOperatorToLine s availableLine.id operatorId with
        | .error _ => none
        | .ok s1 =>
          some { s1 with
            conversations := s1.conversations.map (fun c =>
              if c.userId == some operatorId && c.userLine == some bannedLineId &&
                  c.tabulation == none then
                { c with userLine := some availableLine.id }
              else c) }
      | none =>
        let s1 : St := { s with
          conversations := s.conversations.map (fun c =>
            if c.userId == some operatorId && c.userLine == some bannedLineId &&
                c.tabulation == none then
              { c with tabulation := some (-1) }
            else c) }
        some (waitingQueueUpsert s1 operatorId)

/-- Fold `processBannedOperator` over the evicted operators, in binding
order. -/
def foldBannedOperators (s : St) (bannedLineId : Nat) (bannedSegment : Option Int) :
    List Nat → Option St
  | [] => some s
  | opId :: rest =>
    match processBannedOperator s bannedLineId bannedSegment opId with
    | none => none
    | some s1 => foldBannedOperators s1 bannedLineId bannedSegment rest

/-- `LinesService.handleBannedLine`: mark the line banned, evict its
operators, then per operator either rebind to a replacement line (repointing
that operator's open conversations) or force-close the conversations and
enqueue the operator; a line with no link-table operators but a legacy
`linkedTo` takes the legacy fallback path.  `none` models a thrown
`NotFoundException` (line missing) or an uncaught bind failure. -/
def handleBannedLine (s : St) (lineId : Nat) : Option St :=
  match findLine s lineId with
  | none => none
  | some line =>
    let operatorIds := (lineBindings s lineId).map (·.userId)
    let sBan := bannedSetStatus s lineId
    if !operatorIds.isEmpty then
      foldBannedOperators (bannedUnlink sBan lineId operatorIds) lineId line.segment operatorIds
    else
      match line.linkedTo with
      | some legacyOp =>
        if legacyOp != 0 then
          let s1 : St := { sBan with
            users := sBan.users.map (fun u => if u.id == legacyOp then { u with line := none } else u) }
          match s1.lines.find? (fun l =>
              l.lineStatus == "active" && l.segment == line.segment && l.linkedTo == none) with
          | some al =>
            let s2 : St := { s1 with
              lines := s1.lines.map (fun l => if l.id == al.id then { l with linkedTo := some legacyOp } else l) }
            some { s2 with
              users := s2.users.map (fun u => if u.id == legacyOp then { u with line := some al.id } else u) }
          | none => some s1
        else some sBan
      | none => some sBan

/-- Outcomes of the external collaborators consulted by each recovery
attempt of `recoverAndRetryMessage`, indexed by attempt number:
`reallocSuccess` the line reallocation, `newLineActive` /`newAppOk` the
lookups of the reallocated line and its app, `healthValid` the credential
check (`none` models the check throwing, which the source swallows), and
`dispatchOk` the transport dispatch. -/
structure RetryEnv where
  reallocSuccess : Nat → Bool
  newLineActive : Nat → Bool
  newAppOk : Nat → Bool
  healthValid : Nat → Option Bool
  dispatchOk : Nat → Bool

/-- Observable effects of a send: transport dispatch attempts performed,
reallocations performed, and the backoff sleeps (in ms, in order). -/
structure RetryTrace where
  dispatchAttempts : Nat
  reallocations : Nat
  sleepsMs : List Nat
deriving Repr, DecidableEq

/-- The retry loop of `WebsocketGateway.recoverAndRetryMessage`
(`for attempt = 1..maxRetries`): reallocate, validate the new line / app /
credentials, dispatch; on any failure sleep `attempt * 1000` ms and move to
the next attempt, or give up after the last one.  The recursion counts the
attempts still available (including the current one): `remaining = 1` is the
final attempt (`attempt = maxRetries`), where a failure returns instead of
sleeping; `remaining = 0` is the loop exit. -/
def recoverLoop (env : RetryEnv) : (remaining : Nat) → (attempt : Nat) → RetryTrace →
    Bool × RetryTrace
  | 0, _, tr => (false, tr)
  | remaining + 1, attempt, tr =>
    let tr1 : RetryTrace := { tr with reallocations := tr.reallocations + 1 }
    if !env.reallocSuccess attempt then
      if 0 < remaining then
        recoverLoop env remaining (attempt + 1)
          { tr1 with sleepsMs := tr1.sleepsMs ++ [1000 * attempt] }
      else (false, tr1)
    else if !env.newLineActive attempt then
      if 0 < remaining then
        recoverLoop env remaining (attempt + 1)
          { tr1 with sleepsMs := tr1.sleepsMs ++ [1000 * attempt] }
      else (false, tr1)
    else if !env.newAppOk attempt then
      if 0 < remaining then
        recoverLoop env remaining (attempt + 1)
          { tr1 with sleepsMs := tr1.sleepsMs ++ [1000 * attempt] }
      else (false, tr1)
    else if env.healthValid attempt == some false then
      if 0 < remaining then
        recoverLoop env remaining (attempt + 1)
          { tr1 with sleepsMs := tr1.sleepsMs ++ [1000 * attempt] }
      else (false, tr1)
    else
      let tr2 : RetryTrace := { tr1 with dispatchAttempts := tr1.dispatchAttempts + 1 }
      if env.dispatchOk attempt then (true, tr2)
      else
        if 0 < remaining then
          recoverLoop env remaining (attempt + 1)
            { tr2 with sleepsMs := tr2.sleepsMs ++ [1000 * attempt] }
        else (false, tr2)

/-- `recoverAndRetryMessage` with its `maxRetries = 3`, starting from a fresh
trace. -/
def recoverAndRetryMessage (env : RetryEnv) : Bool × RetryTrace :=
  recoverLoop env 3 1 { dispatchAttempts := 0, reallocations := 0, sleepsMs := [] }

/-- Result of a send as the operator sees it. -/
inductive SendResult where
  | success
  | failure (msg : String)
deriving Repr, DecidableEq

/-- External outcomes for a whole `handleSendMessage` flow: the main-path
credential health check (`none` = the check threw and is swallowed), the
main-path reallocation run when that check reports invalid, the initial
transport dispatch, and the recovery loop's collaborators. -/
structure SendEnv where
  healthValidMain : Option Bool
  mainReallocSuccess : Bool
  initialDispatchOk : Bool
  retry : RetryEnv

/-- The dispatch-and-recovery skeleton of `WebsocketGateway.handleSendMessage`
(after the validation steps): health-check the line (reallocating once on an
explicit invalid result), dispatch, and on a dispatch error run
`recoverAndRetryMessage`; when recovery also fails, the operator receives
only the generic failure message. -/
def handleSendMessageDispatch (env : SendEnv) : SendResult × RetryTrace :=
  let tr0 : RetryTrace := { dispatchAttempts := 0, reallocations := 0, sleepsMs := [] }
  if env.healthValidMain == some false && !env.mainReallocSuccess then
    (.failure "Linha com credenciais inválidas e não foi possível realocar",
      { tr0 with reallocations := 1 })
  else
    let tr1 : RetryTrace :=
      if env.healthValidMain == some false then { tr0 with reallocations := 1 } else tr0
    let tr2 : RetryTrace := { tr1 with dispatchAttempts := tr1.dispatchAttempts + 1 }
    if env.initialDispatchOk then (.success, tr2)
    else
      let r := recoverLoop env.retry 3 1 tr2
      if r.1 then (.success, r.2)
      else (.failure "Não foi possível enviar a mensagem", r.2)

/-! ### Structural lemmas about the bind and unbind transactions -/

/-- The legacy-field refresh inside the bind transaction. -/
def setUserLine (userId lineId : Nat) (u : User) : User :=
  if u.id == userId then { u with line := some lineId } else u

/-- Anatomy of a successful bind: the line was found active with spare
capacity, the (line, operator) pair was absent, and the new binding was
appended after (at most) dropping the operator's binding to a different
line.  Only `lineOperators`, `users` and `lines` change. -/
theorem assignOperatorToLine_ok_spec {s t : St} {l u : Nat}
    (h : assignOperatorToLine s l u = Except.ok t) :
    ∃ line base,
      findLine s l = some line ∧ line.lineStatus = "active" ∧
      (lineBindings s l).length < 2 ∧
      s.lineOperators.any (fun lo => lo.lineId == l && lo.userId == u) = false ∧
      base.Sublist s.lineOperators ∧
      t.lineOperators = base ++ [LineOperator.mk l u] ∧
      (s.lineOperators.find? (fun x => x.userId == u) = none ∧ base = s.lineOperators ∨
        (∃ lo₀, s.lineOperators.find? (fun x => x.userId == u) = some lo₀ ∧ lo₀.lineId = l ∧
          base = s.lineOperators) ∨
        ∃ lo₀, s.lineOperators.find? (fun x => x.userId == u) = some lo₀ ∧ lo₀.lineId ≠ l ∧
          base = s.lineOperators.filter (fun x => !(x.userId == u && x.lineId == lo₀.lineId))) ∧
      t.users = s.users.map (setUserLine u l) ∧
      (t.lines = s.lines ∨
        t.lines = s.lines.map (fun li => if li.id == l then { li with linkedTo := some u } else li)) ∧
      t.conversations = s.conversations ∧ t.segments = s.segments ∧
      t.waitingQueue = s.waitingQueue ∧ t.connTime = s.connTime ∧ t.now = s.now := by
  simp only [assignOperatorToLine] at h
  split at h
  · exact absurd h (by simp)
  · rename_i line hline
    split at h
    · exact absurd h (by simp)
    · rename_i hact
      split at h
      · exact absurd h (by simp)
      · rename_i hcnt
        split at h
        · exact absurd h (by simp)
        · rename_i hpair
          split at h
          next hz =>
            split at h
            next lo0 hfind =>
              split at h
              next hne =>
                rw [Except.ok.injEq] at h
                subst h
                exact ⟨line, s.lineOperators.filter (fun x => !(x.userId == u && x.lineId == lo0.lineId)),
                  hline, by simpa using hact, by omega, by simpa using hpair,
                  List.filter_sublist _, rfl, Or.inr (Or.inr ⟨lo0, hfind, by simpa using hne, rfl⟩),
                  rfl, Or.inr rfl, rfl, rfl, rfl, rfl, rfl⟩
              next hne =>
                rw [Except.ok.injEq] at h
                subst h
                exact ⟨line, s.lineOperators, hline, by simpa using hact, by omega,
                  by simpa using hpair, List.Sublist.refl _, rfl,
                  Or.inr (Or.inl ⟨lo0, hfind, by simpa using hne, rfl⟩),
                  rfl, Or.inr rfl, rfl, rfl, rfl, rfl, rfl⟩
            next hfind =>
              rw [Except.ok.injEq] at h
              subst h
              exact ⟨line, s.lineOperators, hline, by simpa using hact, by omega,
                by simpa using hpair, List.Sublist.refl _, rfl, Or.inl ⟨hfind, rfl⟩,
                rfl, Or.inr rfl, rfl, rfl, rfl, rfl, rfl⟩
          next hz =>
            split at h
            next lo0 hfind =>
              split at h
              next hne =>
                rw [Except.ok.injEq] at h
                subst h
                exact ⟨line, s.lineOperators.filter (fun x => !(x.userId == u && x.lineId == lo0.lineId)),
                  hline, by simpa using hact, by omega, by simpa using hpair,
                  List.filter_sublist _, rfl, Or.inr (Or.inr ⟨lo0, hfind, by simpa using hne, rfl⟩),
                  rfl, Or.inl rfl, rfl, rfl, rfl, rfl, rfl⟩
              next hne =>
                rw [Except.ok.injEq] at h
                subst h
                exact ⟨line, s.lineOperators, hline, by simpa using hact, by omega,
                  by simpa using hpair, List.Sublist.refl _, rfl,
                  Or.inr (Or.inl ⟨lo0, hfind, by simpa using hne, rfl⟩),
                  rfl, Or.inl rfl, rfl, rfl, rfl, rfl, rfl⟩
            next hfind =>
              rw [Except.ok.injEq] at h
              subst h
              exact ⟨line, s.lineOperators, hline, by simpa using hact, by omega,
                by simpa using hpair, List.Sublist.refl _, rfl, Or.inl ⟨hfind, rfl⟩,
                rfl, Or.inl rfl, rfl, rfl, rfl, rfl, rfl⟩

/-- A bind with an active, non-full line and no existing pair succeeds. -/
theorem assignOperatorToLine_ok_of {s : St} {l u : Nat} {line : Line}
    (hl : findLine s l = some line) (hact : line.lineStatus = "active")
    (hcnt : (lineBindings s l).length < 2)
    (hpair : s.lineOperators.any (fun lo => lo.lineId == l && lo.userId == u) = false) :
    ∃ t, assignOperatorToLine s l u = Except.ok t := by
  simp only [assignOperatorToLine]
  rw [hl]
  simp only [hact, hpair]
  rw [if_neg (by simp), if_neg (by omega), if_neg (by simp)]
  exact ⟨_, rfl⟩

/-- A bind against a line that already has two bindings is rejected. -/
theorem assignOperatorToLine_full_rejects (s : St) (l u : Nat)
    (h : 2 ≤ (lineBindings s l).length) :
    ∃ e, assignOperatorToLine s l u = Except.error e := by
  simp only [assignOperatorToLine]
  split
  · exact ⟨_, rfl⟩
  · split
    · exact ⟨_, rfl⟩
    · exact ⟨_, rfl⟩

/-- Unbinding only ever deletes from the link table. -/
theorem unassignOperatorFromLine_lineOperators (s : St) (l u : Nat) :
    (unassignOperatorFromLine s l u).lineOperators =
      s.lineOperators.filter (fun lo => !(lo.lineId == l && lo.userId == u)) := by
  simp only [unassignOperatorFromLine]
  split
  · rfl
  · split <;> rfl

/-! ### C1: per-line capacity -/

/-- One allocation step keeps every line at two bindings or fewer. -/
theorem applyAllocOp_capacity (s : St) (op : AllocOp) (L : Nat)
    (h : (lineBindings s L).length ≤ 2) :
    (lineBindings (applyAllocOp s op) L).length ≤ 2 := by
  cases op with
  | bind l u =>
    simp only [applyAllocOp]
    split
    · rename_i t ht
      obtain ⟨line, base, hline, hact, hcnt, hpair, hsub, hops, hbase, hrest⟩ :=
        assignOperatorToLine_ok_spec ht
      have hf : lineBindings t L =
          base.filter (fun lo => lo.lineId == L) ++
            List.filter (fun lo => lo.lineId == L) [LineOperator.mk l u] := by
        rw [lineBindings, hops, List.filter_append]
      have hlen2 : (base.filter (fun lo => lo.lineId == L)).length ≤ (lineBindings s L).length :=
        (hsub.filter _).length_le
      by_cases hlL : l = L
      · subst hlL
        have hone : List.filter (fun lo => lo.lineId == l) [LineOperator.mk l u] =
            [LineOperator.mk l u] := by simp
        rw [hf, List.length_append, hone]
        simp only [List.length_singleton]
        omega
      · have hzero : List.filter (fun lo => lo.lineId == L) [LineOperator.mk l u] = [] := by
          simp [hlL]
        rw [hf, List.length_append, hzero]
        simp only [List.length_nil]
        omega
    · exact h
  | unbind l u =>
    simp only [applyAllocOp]
    have hs : (lineBindings (unassignOperatorFromLine s l u) L).Sublist (lineBindings s L) := by
      rw [lineBindings, unassignOperatorFromLine_lineOperators]
      exact List.Sublist.filter _ (List.filter_sublist _)
    exact le_trans hs.length_le h

/-- C1: for every line L the number of LineOperator bindings never exceeds
2: a bind against a line whose binding count is already ≥ 2 is rejected with
an error (inserting nothing), and every sequence of bind/unbind operations
preserves `count(bindings where lineId = L) ≤ 2`. -/
theorem capacity_invariant (s : St) (L : Nat)
    (h : (lineBindings s L).length ≤ 2) :
    (∀ uid, 2 ≤ (lineBindings s L).length →
        ∃ e, assignOperatorToLine s L uid = Except.error e) ∧
    ∀ ops : List AllocOp, (lineBindings (applyAllocOps s ops) L).length ≤ 2 := by
  have main : ∀ (ops : List AllocOp) (s : St), (lineBindings s L).length ≤ 2 →
      (lineBindings (applyAllocOps s ops) L).length ≤ 2 := by
    intro ops
    induction ops with
    | nil => intro s hs; exact hs
    | cons op rest ih =>
      intro s hs
      have : applyAllocOps s (op :: rest) = applyAllocOps (applyAllocOp s op) rest := rfl
      rw [this]
      exact ih _ (applyAllocOp_capacity s op L hs)
  exact ⟨fun uid h2 => assignOperatorToLine_full_rejects s L uid h2, fun ops => main ops s h⟩

/-! ### C9: routing is read-only and deterministic -/

/-- `distributeInboundMessage` performs no writes. -/
theorem distributeInboundMessage_snd (s : St) (lineId : Nat) (p : String) :
    (distributeInboundMessage s lineId p).2 = s := by
  simp only [distributeInboundMessage]
  split
  · rfl
  · split
    · rfl
    · split
      · rfl
      · split
        · split <;> rfl
        · rfl

/-- C9: calling `routeInbound`/`distributeInboundMessage` twice in immediate
succession with no intervening state change returns the same operatorId both
times; the routing computation only reads the state it ranks on. -/
theorem idempotent_routing (s : St) (lineId : Nat) (p : String) :
    (distributeInboundMessage s lineId p).2 = s ∧
    (distributeInboundMessage ((distributeInboundMessage s lineId p).2) lineId p).1 =
      (distributeInboundMessage s lineId p).1 :=
  ⟨distributeInboundMessage_snd s lineId p, by rw [distributeInboundMessage_snd]⟩

/-! ### C10: tabulation frame effect -/

/-- C10: `tabulateConversation(p, t)` sets `tabulation = t` on exactly the
conversation rows with `contactPhone = p` and `tabulation = null`; every
already-tabulated row and every row of another contact is unchanged in all
fields, and no other table is touched. -/
theorem tabulation_frame_effect (s : St) (p : String) (t : Int) :
    (tabulateConversation s p t).conversations =
      s.conversations.map (fun c =>
        if c.contactPhone = p ∧ c.tabulation = none then { c with tabulation := some t }
        else c) ∧
    (tabulateConversation s p t).lines = s.lines ∧
    (tabulateConversation s p t).users = s.users ∧
    (tabulateConversation s p t).lineOperators = s.lineOperators ∧
    (tabulateConversation s p t).waitingQueue = s.waitingQueue := by
  refine ⟨?_, rfl, rfl, rfl, rfl⟩
  simp only [tabulateConversation]
  apply List.map_congr_left
  intro c _
  by_cases h1 : c.contactPhone = p <;> by_cases h2 : c.tabulation = none <;>
    simp [h1, h2]


/-- A list of length at most one has equal members. -/
theorem eq_of_mem_of_length_le_one {α : Type} {l : List α} (h : l.length ≤ 1)
    {a b : α} (ha : a ∈ l) (hb : b ∈ l) : a = b := by
  cases l with
  | nil => cases ha
  | cons x xs =>
    cases xs with
    | nil =>
      rw [List.mem_singleton] at ha hb
      rw [ha, hb]
    | cons y ys => simp at h

/-- One allocation step keeps every operator at one binding or fewer. -/
theorem applyAllocOp_perOperator (s : St) (op : AllocOp)
    (hs : ∀ v : Nat, (operatorBindings s v).length ≤ 1) :
    ∀ v : Nat, (operatorBindings (applyAllocOp s op) v).length ≤ 1 := by
  intro v
  cases op with
  | bind l u =>
    simp only [applyAllocOp]
    split
    · rename_i t ht
      obtain ⟨line, base, hline, hact, hcnt, hpair, hsub, hops, hbase, hrest⟩ :=
        assignOperatorToLine_ok_spec ht
      have hf : operatorBindings t v =
          base.filter (fun lo => lo.userId == v) ++
            List.filter (fun lo => lo.userId == v) [LineOperator.mk l u] := by
        rw [operatorBindings, hops, List.filter_append]
      by_cases hvu : v = u
      · subst hvu
        have hone : List.filter (fun lo => lo.userId == v) [LineOperator.mk l v] =
            [LineOperator.mk l v] := by simp
        have hnil : base.filter (fun lo => lo.userId == v) = [] := by
          rcases hbase with ⟨hfind, rfl⟩ | ⟨lo0, hfind, hlid, rfl⟩ | ⟨lo0, hfind, hlid, rfl⟩
          · exact List.filter_eq_nil_iff.mpr (fun a ha => by
              simpa using List.find?_eq_none.mp hfind a ha)
          · exfalso
            have hmem := List.mem_of_find?_eq_some hfind
            have hpu := List.find?_some hfind
            simp only [beq_iff_eq] at hpu
            have : s.lineOperators.any (fun lo => lo.lineId == l && lo.userId == v) = true :=
              List.any_eq_true.mpr ⟨lo0, hmem, by simp [hlid, hpu]⟩
            rw [this] at hpair
            cases hpair
          · apply List.filter_eq_nil_iff.mpr
            intro a ha
            rw [List.mem_filter] at ha
            obtain ⟨hamem, hcond⟩ := ha
            intro hau
            have hau' : a.userId = v := by simpa using hau
            have hmem0 := List.mem_of_find?_eq_some hfind
            have hu0' := List.find?_some hfind
            have hu0 : lo0.userId = v := by simpa using hu0'
            have haops : a ∈ operatorBindings s v := by
              rw [operatorBindings, List.mem_filter]
              exact ⟨hamem, by simpa using hau'⟩
            have h0ops : lo0 ∈ operatorBindings s v := by
              rw [operatorBindings, List.mem_filter]
              exact ⟨hmem0, by simpa using hu0⟩
            have : a = lo0 := eq_of_mem_of_length_le_one (hs v) haops h0ops
            subst this
            simp [hau'] at hcond
        rw [hf, hnil, hone]
        simp
      · have hzero : List.filter (fun lo => lo.userId == v) [LineOperator.mk l u] = [] := by
          simp [hvu]
          intro hc
          exact absurd hc.symm hvu
        have hsub2 : (base.filter (fun lo => lo.userId == v)).length ≤
            (operatorBindings s v).length := (hsub.filter _).length_le
        rw [hf, hzero, List.append_nil]
        exact le_trans hsub2 (hs v)
    · exact hs v
  | unbind l u =>
    simp only [applyAllocOp]
    have hsubl : (operatorBindings (unassignOperatorFromLine s l u) v).Sublist
        (operatorBindings s v) := by
      rw [operatorBindings, operatorBindings, unassignOperatorFromLine_lineOperators]
      exact List.Sublist.filter _ (List.filter_sublist _)
    exact le_trans hsubl.length_le (hs v)

/-- C2: an operator never holds two lines: a successful bind for an operator
who already holds a binding to a different line deletes that prior binding in
the same transaction while inserting the new one, and every sequence of
bind/unbind operations preserves at-most-one-binding-per-operator. -/
theorem single_line_per_operator (s : St)
    (hs : ∀ v : Nat, (operatorBindings s v).length ≤ 1) :
    (∀ l u old t, LineOperator.mk old u ∈ s.lineOperators → old ≠ l →
        assignOperatorToLine s l u = Except.ok t →
        LineOperator.mk old u ∉ t.lineOperators ∧ LineOperator.mk l u ∈ t.lineOperators) ∧
    ∀ ops : List AllocOp, ∀ v : Nat, (operatorBindings (applyAllocOps s ops) v).length ≤ 1 := by
  constructor
  · intro l u old t hold hne hok
    obtain ⟨line, base, hline, hact, hcnt, hpair, hsub, hops, hbase, hrest⟩ :=
      assignOperatorToLine_ok_spec hok
    have holdb : LineOperator.mk old u ∈ operatorBindings s u := by
      rw [operatorBindings, List.mem_filter]
      exact ⟨hold, by simp⟩
    rcases hbase with ⟨hfind, rfl⟩ | ⟨lo0, hfind, hlid, rfl⟩ | ⟨lo0, hfind, hlid, rfl⟩
    · exfalso
      have := List.find?_eq_none.mp hfind _ hold
      simp at this
    · exfalso
      have hmem0 := List.mem_of_find?_eq_some hfind
      have hu0' := List.find?_some hfind
      have hu0 : lo0.userId = u := by simpa using hu0'
      have h0b : lo0 ∈ operatorBindings s u := by
        rw [operatorBindings, List.mem_filter]
        exact ⟨hmem0, by simpa using hu0⟩
      have heq : LineOperator.mk old u = lo0 := eq_of_mem_of_length_le_one (hs u) holdb h0b
      have : old = l := by
        have h2 : (LineOperator.mk old u).lineId = lo0.lineId := by rw [heq]
        simpa [hlid] using h2
      exact hne this
    · have hmem0 := List.mem_of_find?_eq_some hfind
      have hu0' := List.find?_some hfind
      have hu0 : lo0.userId = u := by simpa using hu0'
      have h0b : lo0 ∈ operatorBindings s u := by
        rw [operatorBindings, List.mem_filter]
        exact ⟨hmem0, by simpa using hu0⟩
      have heq : LineOperator.mk old u = lo0 := eq_of_mem_of_length_le_one (hs u) holdb h0b
      have hlid0 : lo0.lineId = old := by rw [← heq]
      constructor
      · rw [hops]
        intro hmem
        rcases List.mem_append.mp hmem with hmem1 | hmem1
        · rw [List.mem_filter] at hmem1
          obtain ⟨_, hcond⟩ := hmem1
          simp [hlid0] at hcond
        · rw [List.mem_singleton] at hmem1
          have : old = l := by
            have h3 := congrArg LineOperator.lineId hmem1
            simpa using h3
          exact hne this
      · rw [hops]
        exact List.mem_append.mpr (Or.inr (by simp))
  · have main : ∀ (ops : List AllocOp) (s : St), (∀ v, (operatorBindings s v).length ≤ 1) →
        ∀ v, (operatorBindings (applyAllocOps s ops) v).length ≤ 1 := by
      intro ops
      induction ops with
      | nil => intro s hs0 v; exact hs0 v
      | cons op rest ih =>
        intro s hs0 v
        have hstep : applyAllocOps s (op :: rest) = applyAllocOps (applyAllocOp s op) rest := rfl
        rw [hstep]
        exact ih _ (applyAllocOp_perOperator s op hs0) v
    exact fun ops v => main ops s hs v




/-- `selectFirstBy` never turns a `some` accumulator into `none`. -/
theorem selectFirstBy_go_isSome (better : Prio → Prio → Bool) :
    ∀ (l : List Prio) (b : Prio),
      ∃ q, l.foldl
        (fun acc p =>
          match acc with
          | none => some p
          | some bb => if better p bb then some p else acc)
        (some b) = some q := by
  intro l
  induction l with
  | nil => intro b; exact ⟨b, rfl⟩
  | cons p rest ih =>
    intro b
    simp only [List.foldl_cons]
    by_cases hpb : better p b = true
    · rw [if_pos hpb]
      exact ih p
    · rw [if_neg (by simpa using hpb)]
      exact ih b

/-- Fold invariant for `selectFirstBy`: the result is one of the candidates
and no candidate strictly beats it. -/
theorem selectFirstBy_go_spec (better : Prio → Prio → Bool)
    (htrans : ∀ a b c, better a b = true → better b c = true → better a c = true)
    (hasymm : ∀ a b, better a b = true → better b a = false) :
    ∀ (l : List Prio) (b q : Prio),
      l.foldl
        (fun acc p =>
          match acc with
          | none => some p
          | some bb => if better p bb then some p else acc)
        (some b) = some q →
      (q = b ∨ q ∈ l) ∧ (better q b = true ∨ q = b) ∧ ∀ r ∈ l, better r q = false := by
  have hirrefl : ∀ a, better a a = false := by
    intro a
    by_cases h : better a a = true
    · exact hasymm a a h
    · simpa using h
  intro l
  induction l with
  | nil =>
    intro b q h
    simp only [List.foldl_nil, Option.some.injEq] at h
    subst h
    exact ⟨Or.inl rfl, Or.inr rfl, by simp⟩
  | cons p rest ih =>
    intro b q h
    simp only [List.foldl_cons] at h
    by_cases hpb : better p b = true
    · rw [if_pos hpb] at h
      obtain ⟨hmem, hqp, hrest⟩ := ih p q h
      refine ⟨?_, ?_, ?_⟩
      · rcases hmem with rfl | hmem
        · exact Or.inr (List.mem_cons_self _ _)
        · exact Or.inr (List.mem_cons_of_mem _ hmem)
      · rcases hqp with hqp | rfl
        · exact Or.inl (htrans q p b hqp hpb)
        · exact Or.inl hpb
      · intro r hr
        rcases List.mem_cons.mp hr with hrp | hr
        · rw [hrp]
          rcases hqp with hqp | hqp
          · exact hasymm q p hqp
          · rw [hqp]
            exact hirrefl p
        · exact hrest r hr
    · rw [if_neg (by simpa using hpb)] at h
      obtain ⟨hmem, hqb, hrest⟩ := ih b q h
      refine ⟨?_, hqb, ?_⟩
      · rcases hmem with rfl | hmem
        · exact Or.inl rfl
        · exact Or.inr (List.mem_cons_of_mem _ hmem)
      · intro r hr
        rcases List.mem_cons.mp hr with hrp | hr
        · rw [hrp]
          rcases hqb with hqb | hqb
          · by_cases hrq : better p q = true
            · have := htrans p q b hrq hqb
              rw [this] at hpb
              simp at hpb
            · simpa using hrq
          · rw [hqb]
            simpa using hpb
        · exact hrest r hr

/-- `selectFirstBy` of a nonempty list is some element no candidate strictly
beats. -/
theorem selectFirstBy_spec (better : Prio → Prio → Bool)
    (htrans : ∀ a b c, better a b = true → better b c = true → better a c = true)
    (hasymm : ∀ a b, better a b = true → better b a = false)
    (l : List Prio) (hl : l ≠ []) :
    ∃ q, selectFirstBy better l = some q ∧ q ∈ l ∧ ∀ r ∈ l, better r q = false := by
  have hirrefl : ∀ a, better a a = false := by
    intro a
    by_cases h : better a a = true
    · exact hasymm a a h
    · simpa using h
  cases l with
  | nil => exact absurd rfl hl
  | cons p rest =>
    obtain ⟨q, hq⟩ := selectFirstBy_go_isSome better rest p
    refine ⟨q, ?_, ?_⟩
    · simpa [selectFirstBy] using hq
    · obtain ⟨hmem, hqp, hrest⟩ := selectFirstBy_go_spec better htrans hasymm rest p q hq
      refine ⟨?_, ?_⟩
      · rcases hmem with rfl | hmem
        · exact List.mem_cons_self _ _
        · exact List.mem_cons_of_mem _ hmem
      · intro r hr
        rcases List.mem_cons.mp hr with hrp | hr
        · rw [hrp]
          rcases hqp with hqp | hqp
          · exact hasymm q p hqp
          · rw [hqp]
            exact hirrefl p
        · exact hrest r hr

/-- Unfolded meaning of the capacity comparator. -/
theorem betterPrio_eq_true_iff (a b : Prio) :
    betterPrio a b = true ↔
      a.activeConversations < b.activeConversations ∨
        (a.activeConversations = b.activeConversations ∧ b.timeLogged < a.timeLogged) := by
  simp [betterPrio]

theorem betterPrio_trans (a b c : Prio) (h1 : betterPrio a b = true)
    (h2 : betterPrio b c = true) : betterPrio a c = true := by
  rw [betterPrio_eq_true_iff] at h1 h2 ⊢
  omega

theorem betterPrio_asymm (a b : Prio) (h : betterPrio a b = true) : betterPrio b a = false := by
  rw [betterPrio_eq_true_iff] at h
  by_cases h2 : betterPrio b a = true
  · rw [betterPrio_eq_true_iff] at h2
    omega
  · simpa using h2

theorem longerLogged_eq_true_iff (a b : Prio) :
    longerLogged a b = true ↔ b.timeLogged < a.timeLogged := by
  simp [longerLogged]

theorem longerLogged_trans (a b c : Prio) (h1 : longerLogged a b = true)
    (h2 : longerLogged b c = true) : longerLogged a c = true := by
  rw [longerLogged_eq_true_iff] at h1 h2 ⊢
  omega

theorem longerLogged_asymm (a b : Prio) (h : longerLogged a b = true) :
    longerLogged b a = false := by
  rw [longerLogged_eq_true_iff] at h
  by_cases h2 : longerLogged b a = true
  · rw [longerLogged_eq_true_iff] at h2
    omega
  · simpa using h2



/-- When no sticky conversation matches, routing reduces to the
load-balancing tail. -/
theorem distributeInboundMessage_no_sticky (s : St) (lineId : Nat) (p : String) (line : Line)
    (hline : findLine s lineId = some line)
    (hseg : truthyInt line.segment = true)
    (hops : segmentOnlineOperators s line.segment ≠ [])
    (hsticky : stickyCandidates s lineId p ((segmentOnlineOperators s line.segment).map (·.id)) = []) :
    (distributeInboundMessage s lineId p).1 =
      loadBalanceSelect s (segmentOnlineOperators s line.segment) := by
  simp only [distributeInboundMessage]
  rw [hline]
  simp only [hseg, Bool.not_true, Bool.false_eq_true, if_false]
  rw [if_neg (by simpa [List.isEmpty_iff] using hops)]
  rw [hsticky]
  rfl



/-- C7: with no sticky match, routing picks an online operator of the line's
segment with the fewest open conversations, ties broken toward the longer
time logged; when every operator is at 5 or more open conversations, it picks
the longest-logged operator regardless of load. -/
theorem load_balanced_selection (s : St) (lineId : Nat) (p : String) (line : Line)
    (hline : findLine s lineId = some line)
    (hseg : truthyInt line.segment = true)
    (hops : segmentOnlineOperators s line.segment ≠ [])
    (hsticky : stickyCandidates s lineId p ((segmentOnlineOperators s line.segment).map (·.id)) = []) :
    ∃ q ∈ (segmentOnlineOperators s line.segment).map (operatorPriority s),
      (distributeInboundMessage s lineId p).1 = some q.operatorId ∧
      ((∃ r ∈ (segmentOnlineOperators s line.segment).map (operatorPriority s),
          r.activeConversations < 5) →
        (∀ r ∈ (segmentOnlineOperators s line.segment).map (operatorPriority s),
          q.activeConversations ≤ r.activeConversations) ∧
        (∀ r ∈ (segmentOnlineOperators s line.segment).map (operatorPriority s),
          r.activeConversations = q.activeConversations → r.timeLogged ≤ q.timeLogged)) ∧
      ((∀ r ∈ (segmentOnlineOperators s line.segment).map (operatorPriority s),
          5 ≤ r.activeConversations) →
        ∀ r ∈ (segmentOnlineOperators s line.segment).map (operatorPriority s),
          r.timeLogged ≤ q.timeLogged) := by
  have hroute := distributeInboundMessage_no_sticky s lineId p line hline hseg hops hsticky
  set ops := segmentOnlineOperators s line.segment with hopsdef
  set prios := ops.map (operatorPriority s) with hpriosdef
  have hpriosne : prios ≠ [] := by
    intro h
    exact hops (List.map_eq_nil_iff.mp h)
  by_cases hcap : prios.filter (fun r => r.activeConversations < 5) = []
  · -- nobody has capacity: longest-logged wins
    obtain ⟨q, hqsel, hqmem, hqbest⟩ :=
      selectFirstBy_spec longerLogged longerLogged_trans longerLogged_asymm prios hpriosne
    refine ⟨q, hqmem, ?_, ?_, ?_⟩
    · rw [hroute]
      simp only [loadBalanceSelect, ← hpriosdef, hcap]
      simp [hqsel]
    · intro ⟨r, hrmem, hrlt⟩
      exfalso
      have : r ∈ prios.filter (fun r => r.activeConversations < 5) := by
        rw [List.mem_filter]
        exact ⟨hrmem, by simpa using hrlt⟩
      rw [hcap] at this
      cases this
    · intro _
      intro r hrmem
      have := hqbest r hrmem
      rw [longerLogged] at this
      simp at this
      exact this
  · -- someone has capacity: fewest conversations, ties to longer logged
    obtain ⟨q, hqsel, hqmem, hqbest⟩ :=
      selectFirstBy_spec betterPrio betterPrio_trans betterPrio_asymm
        (prios.filter (fun r => r.activeConversations < 5)) hcap
    have hqmem' : q ∈ prios := (List.mem_filter.mp hqmem).1
    have hqlt : q.activeConversations < 5 := by
      have := (List.mem_filter.mp hqmem).2
      simpa using this
    refine ⟨q, hqmem', ?_, ?_, ?_⟩
    · rw [hroute]
      simp only [loadBalanceSelect, ← hpriosdef]
      rw [if_pos (by simpa [List.isEmpty_iff] using hcap)]
      simp [hqsel]
    · intro _
      constructor
      · intro r hrmem
        by_cases hr5 : r.activeConversations < 5
        · have hrf : r ∈ prios.filter (fun r => r.activeConversations < 5) := by
            rw [List.mem_filter]
            exact ⟨hrmem, by simpa using hr5⟩
          have := hqbest r hrf
          rw [betterPrio] at this
          simp only [Bool.or_eq_false_iff, Bool.and_eq_false_iff,
            decide_eq_false_iff_not, beq_eq_false_iff_ne, ne_eq] at this
          omega
        · omega
      · intro r hrmem hreq
        have hrf : r ∈ prios.filter (fun r => r.activeConversations < 5) := by
          rw [List.mem_filter]
          refine ⟨hrmem, by simp; omega⟩
        have := hqbest r hrf
        rw [betterPrio] at this
        simp only [Bool.or_eq_false_iff, Bool.and_eq_false_iff,
          decide_eq_false_iff_not, beq_eq_false_iff_ne, ne_eq] at this
        omega
    · intro hall
      exfalso
      have := hall q hqmem'
      omega




/-- `latestByDatetime` of a nonempty list returns one of its members. -/
theorem latestByDatetime_mem (l : List Conversation) (hl : l ≠ []) :
    ∃ c, latestByDatetime l = some c ∧ c ∈ l := by
  have aux : ∀ (t : List Conversation) (a : Conversation),
      ∃ c, t.foldl
          (fun acc c =>
            match acc with
            | none => some c
            | some b => if b.datetime < c.datetime then some c else acc)
          (some a) = some c ∧ (c = a ∨ c ∈ t) := by
    intro t
    induction t with
    | nil => intro a; exact ⟨a, rfl, Or.inl rfl⟩
    | cons x xs ih =>
      intro a
      simp only [List.foldl_cons]
      by_cases hx : a.datetime < x.datetime
      · rw [if_pos hx]
        obtain ⟨c, hc, hcm⟩ := ih x
        refine ⟨c, hc, ?_⟩
        rcases hcm with rfl | hcm
        · exact Or.inr (List.mem_cons_self _ _)
        · exact Or.inr (List.mem_cons_of_mem _ hcm)
      · rw [if_neg hx]
        obtain ⟨c, hc, hcm⟩ := ih a
        refine ⟨c, hc, ?_⟩
        rcases hcm with rfl | hcm
        · exact Or.inl rfl
        · exact Or.inr (List.mem_cons_of_mem _ hcm)
  cases l with
  | nil => exact absurd rfl hl
  | cons x xs =>
    obtain ⟨c, hc, hcm⟩ := aux xs x
    refine ⟨c, by simpa [latestByDatetime] using hc, ?_⟩
    rcases hcm with rfl | hcm
    · exact List.mem_cons_self _ _
    · exact List.mem_cons_of_mem _ hcm

/-- C4 (amended): sticky routing is keyed on the routed line: when every
untabulated conversation of the contact *on this line* owned by an online
operator of the line's segment belongs to operator `o`, routing returns `o`
rather than any lower-loaded operator. -/
theorem sticky_routing_on_line (s : St) (lineId : Nat) (p : String) (line : Line) (o : Nat)
    (hline : findLine s lineId = some line)
    (hseg : truthyInt line.segment = true)
    (hops : segmentOnlineOperators s line.segment ≠ [])
    (ho : o ≠ 0)
    (hcand : stickyCandidates s lineId p ((segmentOnlineOperators s line.segment).map (·.id)) ≠ [])
    (hall : ∀ c ∈ stickyCandidates s lineId p ((segmentOnlineOperators s line.segment).map (·.id)),
        c.userId = some o) :
    (distributeInboundMessage s lineId p).1 = some o := by
  simp only [distributeInboundMessage]
  rw [hline]
  simp only [hseg, Bool.not_true, Bool.false_eq_true, if_false]
  rw [if_neg (by simpa [List.isEmpty_iff] using hops)]
  obtain ⟨c, hlat, hcmem⟩ := latestByDatetime_mem _ hcand
  rw [hlat]
  have hcu := hall c hcmem
  simp [hcu, truthyNat, ho]

/-- Concrete store for the sticky-routing counterexample: the only open
conversation of contact "p" is owned by online operator 1 of segment 1, but
it lives on line 2, while the inbound arrives on line 1. -/
def stC4 : St :=
  { lines := [⟨1, "5511", "active", some 1, none⟩, ⟨2, "5522", "active", some 1, none⟩]
    users := [⟨1, "O1", "operator", "Online", some 1, none⟩,
              ⟨2, "O2", "operator", "Online", some 1, none⟩]
    lineOperators := []
    conversations := [⟨1, "p", some 1, "O1", some 2, some 1, "m", "contact", none, 10⟩]
    segments := []
    waitingQueue := []
    connTime := [(1, 100), (2, 50)]
    now := 1000 }

/-- C4 counterexample: an untabulated conversation for contact "p" owned by
online in-segment operator 1 exists, yet `distributeInboundMessage` routes
the inbound for "p" on line 1 to operator 2, the operator with fewer open
conversations — because the conversation's `userLine` (2) differs from the
routed line (1). -/
theorem sticky_routing_counterexample :
    (stC4.conversations.filter
        (fun c => c.contactPhone == "p" && c.tabulation == none)).map (fun c => c.userId) =
      [some 1] ∧
    (segmentOnlineOperators stC4 (some 1)).map (fun u => u.id) = [1, 2] ∧
    findLine stC4 1 = some ⟨1, "5511", "active", some 1, none⟩ ∧
    activeConversationCount stC4 2 = 0 ∧
    activeConversationCount stC4 1 = 1 ∧
    (distributeInboundMessage stC4 1 "p").1 = some 2 := by
  decide

/-- Concrete store where the open conversation of contact "p" is on the
routed line itself. -/
def stC4w : St :=
  { lines := [⟨1, "5511", "active", some 1, none⟩, ⟨2, "5522", "active", some 1, none⟩]
    users := [⟨1, "O1", "operator", "Online", some 1, none⟩,
              ⟨2, "O2", "operator", "Online", some 1, none⟩]
    lineOperators := []
    conversations := [⟨1, "p", some 1, "O1", some 1, some 1, "m", "contact", none, 10⟩]
    segments := []
    waitingQueue := []
    connTime := [(1, 100), (2, 50)]
    now := 1000 }

theorem sticky_routing_on_line_witness :
    (distributeInboundMessage stC4w 1 "p").1 = some 1 :=
  sticky_routing_on_line stC4w 1 "p" ⟨1, "5511", "active", some 1, none⟩ 1
    (by decide) (by decide) (by decide) (by decide) (by decide) (by decide)



/-- Segment isolation: a line never has bindings to operators of two
different non-null segments. -/
def segIso (s : St) : Prop :=
  ∀ L : Nat, ∀ lo1 ∈ lineBindings s L, ∀ lo2 ∈ lineBindings s L,
    ∀ u1 u2 : User, findUser s lo1.userId = some u1 → findUser s lo2.userId = some u2 →
      ∀ a b : Int, u1.segment = some a → u2.segment = some b → a = b

/-- Concrete store for the segment-isolation counterexample: line 10 is
active with operator 1 (segment 1) bound; operator 2 has segment 2. -/
def stC5 : St :=
  { lines := [⟨10, "5510", "active", some 1, some 1⟩]
    users := [⟨1, "O1", "operator", "Online", some 1, some 10⟩,
              ⟨2, "O2", "operator", "Online", some 2, none⟩]
    lineOperators := [⟨10, 1⟩]
    conversations := []
    segments := []
    waitingQueue := []
    connTime := []
    now := 0 }

/-- The store produced by `assignOperatorToLine stC5 10 2`. -/
def stC5post : St :=
  { lines := [⟨10, "5510", "active", some 1, some 1⟩]
    users := [⟨1, "O1", "operator", "Online", some 1, some 10⟩,
              ⟨2, "O2", "operator", "Online", some 2, some 10⟩]
    lineOperators := [⟨10, 1⟩, ⟨10, 2⟩]
    conversations := []
    segments := []
    waitingQueue := []
    connTime := []
    now := 0 }

/-- C5 counterexample: `assignOperatorToLine` performs no segment check, so
binding operator 2 (segment 2) to line 10 — which already carries operator 1
(segment 1) — succeeds and leaves the line serving two different non-null
segments.  The bind operation does not preserve the segment-isolation
predicate. -/
theorem segment_isolation_counterexample :
    segIso stC5 ∧
    assignOperatorToLine stC5 10 2 = Except.ok stC5post ∧
    LineOperator.mk 10 1 ∈ lineBindings stC5post 10 ∧
    LineOperator.mk 10 2 ∈ lineBindings stC5post 10 ∧
    findUser stC5post 1 = some ⟨1, "O1", "operator", "Online", some 1, some 10⟩ ∧
    findUser stC5post 2 = some ⟨2, "O2", "operator", "Online", some 2, some 10⟩ ∧
    ¬ segIso stC5post := by
  refine ⟨?_, by rfl, by decide, by decide, by decide, by decide, ?_⟩
  · intro L lo1 h1 lo2 h2 u1 u2 hu1 hu2 a b ha hb
    have m1 : lo1 ∈ stC5.lineOperators := List.mem_of_mem_filter h1
    have m2 : lo2 ∈ stC5.lineOperators := List.mem_of_mem_filter h2
    have e1 : lo1 = LineOperator.mk 10 1 := by simpa [stC5] using m1
    have e2 : lo2 = LineOperator.mk 10 1 := by simpa [stC5] using m2
    rw [e1] at hu1
    rw [e2] at hu2
    have : u1 = u2 := by
      have hx : (⟨1, "O1", "operator", "Online", some 1, some 10⟩ : User) = u1 := by
        have : findUser stC5 1 = some ⟨1, "O1", "operator", "Online", some 1, some 10⟩ := by decide
        rw [this] at hu1
        exact (Option.some.injEq _ _).mp hu1
      have hy : (⟨1, "O1", "operator", "Online", some 1, some 10⟩ : User) = u2 := by
        have : findUser stC5 1 = some ⟨1, "O1", "operator", "Online", some 1, some 10⟩ := by decide
        rw [this] at hu2
        exact (Option.some.injEq _ _).mp hu2
      rw [← hx, ← hy]
    rw [this] at ha
    rw [ha] at hb
    exact (Option.some.injEq _ _).mp hb
  · intro h
    have := h 10 (LineOperator.mk 10 1) (by decide) (LineOperator.mk 10 2) (by decide)
      ⟨1, "O1", "operator", "Online", some 1, some 10⟩
      ⟨2, "O2", "operator", "Online", some 2, some 10⟩
      (by decide) (by decide) 1 2 rfl rfl
    exact absurd this (by decide)

/-- `find?` over a mapped list, when the predicate ignores the mapping. -/
theorem find?_map_of_pred {α β : Type} (f : α → β) (p : β → Bool) (q : α → Bool)
    (hpq : ∀ a, p (f a) = q a) :
    ∀ l : List α, (l.map f).find? p = (l.find? q).map f := by
  intro l
  induction l with
  | nil => rfl
  | cons a t ih =>
    simp only [List.map_cons, List.find?_cons, hpq a]
    cases hq : q a
    · simpa using ih
    · rfl

/-- `setUserLine` keeps ids. -/
theorem setUserLine_id (uid lid : Nat) (u : User) : (setUserLine uid lid u).id = u.id := by
  simp only [setUserLine]
  split <;> rfl

/-- `setUserLine` keeps segments. -/
theorem setUserLine_segment (uid lid : Nat) (u : User) :
    (setUserLine uid lid u).segment = u.segment := by
  simp only [setUserLine]
  split <;> rfl

/-- A user looked up after a successful bind is the pre-bind user with only
the legacy line field refreshed; the segment is untouched. -/
theorem findUser_after_assign {s t : St} {l u : Nat}
    (h : assignOperatorToLine s l u = Except.ok t) (x : Nat) :
    findUser t x = (findUser s x).map (setUserLine u l) := by
  obtain ⟨line, base, hline, hact, hcnt, hpair, hsub, hops, hbase, husers, hrest⟩ :=
    assignOperatorToLine_ok_spec h
  rw [findUser, husers, findUser]
  exact find?_map_of_pred (setUserLine u l) _ _
    (fun a => by rw [setUserLine_id]) s.users

/-- C5 (amended): `assignOperatorToLine` itself checks no segments (see
`segment_isolation_counterexample`); isolation is enforced by the candidate
selection: a line returned by `findAvailableLineForOperator` only carries
operators of the requested segment, and binding the requester (of that same
segment) there keeps every operator of the line in that one segment. -/
theorem segment_isolation_selector (s : St) (ls : List Line) (uid : Nat) (useg : Option Int)
    (line : Line) (hfind : findAvailableLineForOperator s ls uid useg = some line)
    (requester : User) (hreq : findUser s uid = some requester)
    (hseg : requester.segment = useg) :
    (∀ lo ∈ lineBindings s line.id, ∀ u, findUser s lo.userId = some u → u.segment = useg) ∧
    ∀ t, assignOperatorToLine s line.id uid = Except.ok t →
      ∀ lo ∈ lineBindings t line.id, ∀ u, findUser t lo.userId = some u → u.segment = useg := by
  have hpred := List.find?_some hfind
  simp only [Bool.and_eq_true, Bool.or_eq_true] at hpred
  have hall : ∀ lo ∈ lineBindings s line.id, ∀ u, findUser s lo.userId = some u →
      u.segment = useg := by
    intro lo hlo u hu
    rcases hpred with ⟨⟨⟨hsegok, hcnt⟩, hnotbound⟩, hempty | hallseg⟩
    · rw [List.isEmpty_iff] at hempty
      rw [hempty] at hlo
      cases hlo
    · have := List.all_eq_true.mp hallseg lo hlo
      rw [hu] at this
      simpa using this
  refine ⟨hall, ?_⟩
  intro t ht lo hlo u hu
  obtain ⟨line2, base, hline2, hact, hcnt2, hpair2, hsub, hops, hbase, husers, hrest⟩ :=
    assignOperatorToLine_ok_spec ht
  rw [lineBindings, hops, List.filter_append] at hlo
  rcases List.mem_append.mp hlo with hlo1 | hlo1
  · -- an operator already on the line before the bind
    have hmem : lo ∈ lineBindings s line.id := by
      rw [List.mem_filter] at hlo1
      rw [lineBindings, List.mem_filter]
      exact ⟨hsub.subset hlo1.1, hlo1.2⟩
    rw [findUser_after_assign ht] at hu
    rcases hfu : findUser s lo.userId with _ | u0
    · rw [hfu] at hu
      cases hu
    · rw [hfu] at hu
      have : u = setUserLine uid line.id u0 := by
        simpa using hu.symm
      rw [this, setUserLine_segment]
      exact hall lo hmem u0 hfu
  · -- the requester
    have : lo = LineOperator.mk line.id uid := by simpa using hlo1
    rw [this] at hu
    rw [findUser_after_assign ht] at hu
    rw [hreq] at hu
    have : u = setUserLine uid line.id requester := by simpa using hu.symm
    rw [this, setUserLine_segment]
    exact hseg

/-- Concrete store for the selector witness: line 20 (segment 1, empty) and
requester 3 of segment 1. -/
def stC5w : St :=
  { lines := [⟨20, "5520", "active", some 1, none⟩]
    users := [⟨3, "O3", "operator", "Online", some 1, none⟩]
    lineOperators := []
    conversations := []
    segments := []
    waitingQueue := []
    connTime := []
    now := 0 }

/-- The store produced by `assignOperatorToLine stC5w 20 3`. -/
def stC5wPost : St :=
  { lines := [⟨20, "5520", "active", some 1, some 3⟩]
    users := [⟨3, "O3", "operator", "Online", some 1, some 20⟩]
    lineOperators := [⟨20, 3⟩]
    conversations := []
    segments := []
    waitingQueue := []
    connTime := []
    now := 0 }

theorem segment_isolation_selector_witness :
    (⟨3, "O3", "operator", "Online", some 1, some 20⟩ : User).segment = some 1 :=
  (segment_isolation_selector stC5w [⟨20, "5520", "active", some 1, none⟩] 3 (some 1)
      ⟨20, "5520", "active", some 1, none⟩ (by decide)
      ⟨3, "O3", "operator", "Online", some 1, none⟩ (by decide) rfl).2
    stC5wPost (by rfl) (LineOperator.mk 20 3) (by decide)
    ⟨3, "O3", "operator", "Online", some 1, some 20⟩ (by decide)



/-- A failing non-final recovery attempt performs exactly one reallocation,
at most one dispatch, sleeps `1000 * attempt` ms, and moves on. -/
theorem recoverLoop_step (env : RetryEnv) (rem a : Nat) (hrem : 0 < rem)
    (hd : env.dispatchOk a = false) (tr : RetryTrace) :
    ∃ d ≤ 1, recoverLoop env (rem + 1) a tr =
      recoverLoop env rem (a + 1)
        { dispatchAttempts := tr.dispatchAttempts + d
          reallocations := tr.reallocations + 1
          sleepsMs := tr.sleepsMs ++ [1000 * a] } := by
  simp only [recoverLoop]
  by_cases h1 : env.reallocSuccess a = true
  · rw [if_neg (by simp [h1])]
    by_cases h2 : env.newLineActive a = true
    · rw [if_neg (by simp [h2])]
      by_cases h3 : env.newAppOk a = true
      · rw [if_neg (by simp [h3])]
        by_cases h4 : (env.healthValid a == some false) = true
        · rw [if_pos h4, if_pos hrem]
          exact ⟨0, by omega, rfl⟩
        · rw [if_neg (by simpa using h4)]
          rw [if_neg (by simp [hd]), if_pos hrem]
          exact ⟨1, le_refl 1, rfl⟩
      · rw [if_pos (by simpa using h3), if_pos hrem]
        exact ⟨0, by omega, rfl⟩
    · rw [if_pos (by simpa using h2), if_pos hrem]
      exact ⟨0, by omega, rfl⟩
  · rw [if_pos (by simpa using h1), if_pos hrem]
    exact ⟨0, by omega, rfl⟩

/-- A failing final recovery attempt performs one reallocation and at most
one dispatch, then gives up without sleeping. -/
theorem recoverLoop_last (env : RetryEnv) (a : Nat)
    (hd : env.dispatchOk a = false) (tr : RetryTrace) :
    ∃ d ≤ 1, recoverLoop env 1 a tr =
      (false,
        { dispatchAttempts := tr.dispatchAttempts + d
          reallocations := tr.reallocations + 1
          sleepsMs := tr.sleepsMs }) := by
  simp only [recoverLoop]
  by_cases h1 : env.reallocSuccess a = true
  · rw [if_neg (by simp [h1])]
    by_cases h2 : env.newLineActive a = true
    · rw [if_neg (by simp [h2])]
      by_cases h3 : env.newAppOk a = true
      · rw [if_neg (by simp [h3])]
        by_cases h4 : (env.healthValid a == some false) = true
        · rw [if_pos h4, if_neg (by omega)]
          exact ⟨0, by omega, rfl⟩
        · rw [if_neg (by simpa using h4)]
          rw [if_neg (by simp [hd]), if_neg (by omega)]
          exact ⟨1, le_refl 1, rfl⟩
      · rw [if_pos (by simpa using h3), if_neg (by omega)]
        exact ⟨0, by omega, rfl⟩
    · rw [if_pos (by simpa using h2), if_neg (by omega)]
      exact ⟨0, by omega, rfl⟩
  · rw [if_pos (by simpa using h1), if_neg (by omega)]
    exact ⟨0, by omega, rfl⟩

/-- The three-attempt recovery loop under an always-failing transport: it
fails, performs exactly one reallocation per attempt (3 total), at most one
dispatch per attempt, and sleeps 1s then 2s between attempts. -/
theorem recoverLoop_fail_all (env : RetryEnv)
    (hd : ∀ a, env.dispatchOk a = false) (tr : RetryTrace) :
    ∃ d ≤ 3, recoverLoop env 3 1 tr =
      (false,
        { dispatchAttempts := tr.dispatchAttempts + d
          reallocations := tr.reallocations + 3
          sleepsMs := tr.sleepsMs ++ [1000 * 1, 1000 * 2] }) := by
  obtain ⟨d1, hd1, h1⟩ := recoverLoop_step env 2 1 (by omega) (hd 1) tr
  obtain ⟨d2, hd2, h2⟩ := recoverLoop_step env 1 2 (by omega) (hd 2)
    { dispatchAttempts := tr.dispatchAttempts + d1
      reallocations := tr.reallocations + 1
      sleepsMs := tr.sleepsMs ++ [1000 * 1] }
  obtain ⟨d3, hd3, h3⟩ := recoverLoop_last env 3 (hd 3)
    { dispatchAttempts := tr.dispatchAttempts + d1 + d2
      reallocations := tr.reallocations + 1 + 1
      sleepsMs := (tr.sleepsMs ++ [1000 * 1]) ++ [1000 * 2] }
  refine ⟨d1 + d2 + d3, by omega, ?_⟩
  have h1' : recoverLoop env 3 1 tr = recoverLoop env 2 2
      { dispatchAttempts := tr.dispatchAttempts + d1
        reallocations := tr.reallocations + 1
        sleepsMs := tr.sleepsMs ++ [1000 * 1] } := h1
  have h2' : recoverLoop env 2 2
      { dispatchAttempts := tr.dispatchAttempts + d1
        reallocations := tr.reallocations + 1
        sleepsMs := tr.sleepsMs ++ [1000 * 1] } = recoverLoop env 1 3
      { dispatchAttempts := tr.dispatchAttempts + d1 + d2
        reallocations := tr.reallocations + 1 + 1
        sleepsMs := (tr.sleepsMs ++ [1000 * 1]) ++ [1000 * 2] } := h2
  rw [h1', h2', h3]
  simp only [Prod.mk.injEq, RetryTrace.mk.injEq, List.append_assoc, true_and, and_true,
    List.singleton_append, List.cons_append, List.nil_append]
  omega



/-- C6 (amended): a send whose transport dispatch fails on every attempt
surfaces only the generic failure message, performs at most 4 transport
dispatches in total (the initial one plus at most one per recovery attempt),
performs exactly one reallocation per recovery attempt (3) plus at most one
main-path reallocation, and sleeps `attempt * 1s` between recovery attempts
(1s then 2s) before giving up. -/
theorem retry_bound (env : SendEnv)
    (hmain : env.healthValidMain = some false → env.mainReallocSuccess = true)
    (hinit : env.initialDispatchOk = false)
    (hd : ∀ a, env.retry.dispatchOk a = false) :
    (handleSendMessageDispatch env).1 =
      SendResult.failure "Não foi possível enviar a mensagem" ∧
    1 ≤ (handleSendMessageDispatch env).2.dispatchAttempts ∧
    (handleSendMessageDispatch env).2.dispatchAttempts ≤ 4 ∧
    3 ≤ (handleSendMessageDispatch env).2.reallocations ∧
    (handleSendMessageDispatch env).2.reallocations ≤ 4 ∧
    (handleSendMessageDispatch env).2.sleepsMs = [1000 * 1, 1000 * 2] := by
  have hguard : ¬((env.healthValidMain == some false && !env.mainReallocSuccess) = true) := by
    by_cases hm2 : env.healthValidMain = some false
    · simp [hm2, hmain hm2]
    · simp [hm2]
  have hinitB : ¬(env.initialDispatchOk = true) := by simp [hinit]
  by_cases hm : env.healthValidMain = some false
  · have hmB : (env.healthValidMain == some false) = true := by simp [hm]
    have hgoal : handleSendMessageDispatch env =
        (if (recoverLoop env.retry 3 1
              { dispatchAttempts := 1, reallocations := 1, sleepsMs := [] }).1 then
          (SendResult.success,
            (recoverLoop env.retry 3 1
              { dispatchAttempts := 1, reallocations := 1, sleepsMs := [] }).2)
        else
          (SendResult.failure "Não foi possível enviar a mensagem",
            (recoverLoop env.retry 3 1
              { dispatchAttempts := 1, reallocations := 1, sleepsMs := [] }).2)) := by
      simp only [handleSendMessageDispatch]
      rw [if_neg hguard, if_pos hmB, if_neg hinitB]
    obtain ⟨d, hdle, hrec⟩ := recoverLoop_fail_all env.retry hd
      { dispatchAttempts := 1, reallocations := 1, sleepsMs := [] }
    rw [hgoal, hrec, if_neg (by simp)]
    refine ⟨rfl, by simp, by (simp; omega), by simp, by simp, by simp⟩
  · have hmB : ¬((env.healthValidMain == some false) = true) := by simp [hm]
    have hgoal : handleSendMessageDispatch env =
        (if (recoverLoop env.retry 3 1
              { dispatchAttempts := 1, reallocations := 0, sleepsMs := [] }).1 then
          (SendResult.success,
            (recoverLoop env.retry 3 1
              { dispatchAttempts := 1, reallocations := 0, sleepsMs := [] }).2)
        else
          (SendResult.failure "Não foi possível enviar a mensagem",
            (recoverLoop env.retry 3 1
              { dispatchAttempts := 1, reallocations := 0, sleepsMs := [] }).2)) := by
      simp only [handleSendMessageDispatch]
      rw [if_neg hguard, if_neg hmB, if_neg hinitB]
    obtain ⟨d, hdle, hrec⟩ := recoverLoop_fail_all env.retry hd
      { dispatchAttempts := 1, reallocations := 0, sleepsMs := [] }
    rw [hgoal, hrec, if_neg (by simp)]
    refine ⟨rfl, by simp, by (simp; omega), by simp, by simp, by simp⟩

/-- Outcomes for the counterexample: main path healthy, every transport
dispatch fails, everything else succeeds. -/
def envC6 : SendEnv :=
  { healthValidMain := some true
    mainReallocSuccess := true
    initialDispatchOk := false
    retry :=
      { reallocSuccess := fun _ => true
        newLineActive := fun _ => true
        newAppOk := fun _ => true
        healthValid := fun _ => some true
        dispatchOk := fun _ => false } }

/-- C6 counterexample: with transport failing on every attempt, the send
performs 4 transport dispatch attempts in total (the initial dispatch plus
the 3 recovery attempts), exceeding the claimed bound of 3, before returning
the generic failure. -/
theorem retry_bound_counterexample :
    (handleSendMessageDispatch envC6).2.dispatchAttempts = 4 ∧
    3 < (handleSendMessageDispatch envC6).2.dispatchAttempts ∧
    (handleSendMessageDispatch envC6).1 =
      SendResult.failure "Não foi possível enviar a mensagem" ∧
    (handleSendMessageDispatch envC6).2.reallocations = 3 ∧
    (handleSendMessageDispatch envC6).2.sleepsMs = [1000, 2000] := by
  refine ⟨by rfl, by decide, by rfl, by rfl, by rfl⟩

/-- Witness environment for the amended retry bound: sends fail transport
throughout. -/
theorem retry_bound_witness :
    (handleSendMessageDispatch envC6).1 =
      SendResult.failure "Não foi possível enviar a mensagem" ∧
    1 ≤ (handleSendMessageDispatch envC6).2.dispatchAttempts ∧
    (handleSendMessageDispatch envC6).2.dispatchAttempts ≤ 4 ∧
    3 ≤ (handleSendMessageDispatch envC6).2.reallocations ∧
    (handleSendMessageDispatch envC6).2.reallocations ≤ 4 ∧
    (handleSendMessageDispatch envC6).2.sleepsMs = [1000 * 1, 1000 * 2] :=
  retry_bound envC6 (fun h => by cases h) rfl (fun _ => rfl)



/-- `find?` by a unique key returns the member itself. -/
theorem find?_eq_of_mem_nodup {α : Type} (key : α → Nat) (l : List α) (x : α)
    (hmem : x ∈ l) (hnodup : (l.map key).Nodup) :
    l.find? (fun a => key a == key x) = some x := by
  induction l with
  | nil => cases hmem
  | cons a t ih =>
    rw [List.map_cons, List.nodup_cons] at hnodup
    rcases List.mem_cons.mp hmem with rfl | hmem2
    · simp [List.find?_cons]
    · rw [List.find?_cons]
      have hne : (key a == key x) = false := by
        by_cases h : key a = key x
        · exact absurd (h ▸ List.mem_map_of_mem key hmem2) hnodup.1
        · simpa using h
      rw [hne]
      exact ih hmem2 hnodup.2

/-- With unique line ids, looking up a member line finds that line. -/
theorem findLine_of_mem {s : St} {l : Line} (hmem : l ∈ s.lines)
    (hnodup : (s.lines.map (fun x => x.id)).Nodup) : findLine s l.id = some l := by
  rw [findLine]
  exact find?_eq_of_mem_nodup (fun x => x.id) s.lines l hmem hnodup

/-- A line accepted by `findAvailableLineForOperator` has spare capacity and
no existing binding for the requester. -/
theorem findAvailableLine_pred {s : St} {ls : List Line} {uid : Nat} {useg : Option Int}
    {line : Line} (h : findAvailableLineForOperator s ls uid useg = some line) :
    line ∈ ls ∧ (lineBindings s line.id).length < 2 ∧
    (s.lineOperators.any (fun lo => lo.lineId == line.id && lo.userId == uid)) = false := by
  have hmem := List.mem_of_find?_eq_some h
  have hpred := List.find?_some h
  simp only [Bool.and_eq_true, decide_eq_true_eq, Bool.not_eq_true'] at hpred
  exact ⟨hmem, hpred.1.1.2, hpred.1.2⟩

/-- Lines looked up after a successful bind agree with the pre-bind lines on
everything except possibly `linkedTo`. -/
theorem findLine_after_assign {s t : St} {l u : Nat}
    (h : assignOperatorToLine s l u = Except.ok t) (x : Nat) :
    findLine t x = findLine s x ∨
    findLine t x =
      (findLine s x).map (fun li => if li.id == l then { li with linkedTo := some u } else li) := by
  obtain ⟨line, base, hline, hact, hcnt, hpair, hsub, hops, hbase, husers, hlines, hrest⟩ :=
    assignOperatorToLine_ok_spec h
  rcases hlines with hsame | hmap
  · exact Or.inl (by rw [findLine, hsame, findLine])
  · refine Or.inr ?_
    rw [findLine, hmap, findLine]
    exact find?_map_of_pred _ _ _
      (fun a => by
        by_cases ha : a.id = l
        · simp [ha]
        · simp [ha])
      s.lines



/-- `reallocUnlink` touches only the link table. -/
theorem reallocUnlink_lines (s : St) (uid : Nat) (cur : Option Nat) :
    (reallocUnlink s uid cur).lines = s.lines := by
  unfold reallocUnlink
  split <;> rfl

/-- In the success path, `reallocateLineForOperator` is the bind phase
applied to the find phase on the unlinked store. -/
theorem reallocate_eq_phases (evoFilter : List Line → Option Int → List Line)
    (s : St) (uid : Nat) (useg : Option Int) (operator : User)
    (hop : findUser s uid = some operator) (hrole : operator.role = "operator") :
    ∃ oldPhone,
      reallocateLineForOperator evoFilter s uid useg =
        reallocBind oldPhone uid
          (reallocFind evoFilter (reallocUnlink s uid (reallocCurrentLineId s uid operator))
            uid useg) := by
  simp only [reallocateLineForOperator]
  split
  next hfu => rw [hop] at hfu; cases hfu
  next op2 hfu =>
    rw [hop, Option.some.injEq] at hfu
    subst hfu
    rw [if_neg (by simp [hrole])]
    exact ⟨_, rfl⟩

/-- When the segment scan hits, the find phase returns it with no store
change. -/
theorem reallocFind_segment_hit (evoFilter : List Line → Option Int → List Line)
    (s1 : St) (uid : Nat) (useg : Option Int) (al : Line)
    (hG : truthyInt useg = true)
    (hal : findAvailableLineForOperator s1 (evoFilter (activeSegmentLines s1 useg) useg)
        uid useg = some al) :
    reallocFind evoFilter s1 uid useg = (some al, s1) := by
  simp only [reallocFind]
  rw [if_pos hG, hal]

/-- When the segment scan misses and the default-segment scan hits, the find
phase returns the default-segment line and rewrites its segment tag. -/
theorem reallocFind_default_hit (evoFilter : List Line → Option Int → List Line)
    (s1 : St) (uid : Nat) (useg : Option Int) (ds : Seg) (al : Line)
    (hG : truthyInt useg = true)
    (hnone : findAvailableLineForOperator s1 (evoFilter (activeSegmentLines s1 useg) useg)
        uid useg = none)
    (hds : s1.segments.find? (fun sg => sg.name == "Padrão") = some ds)
    (hal : findAvailableLineForOperator s1 (evoFilter (activeSegmentLines s1 (some ds.id)) useg)
        uid useg = some al) :
    reallocFind evoFilter s1 uid useg =
      (some al,
        { s1 with
          lines := s1.lines.map (fun l =>
            if l.id == al.id then { l with segment := useg } else l) }) := by
  have hdflt : reallocFindDefault evoFilter s1 uid useg =
      (some al,
        { s1 with
          lines := s1.lines.map (fun l =>
            if l.id == al.id then { l with segment := useg } else l) }) := by
    simp only [reallocFindDefault]
    split
    next h => rw [hds] at h; cases h
    next ds2 h =>
      rw [hds, Option.some.injEq] at h
      subst h
      rw [hal]
      split
      next h2 => cases h2
      next al2 h2 =>
        rw [Option.some.injEq] at h2
        subst h2
        rw [if_pos hG]
  simp only [reallocFind]
  rw [if_pos hG, hnone]
  exact hdflt

/-- When the chosen line binds successfully, the bind phase reports success
with its id and the post-bind store. -/
theorem reallocBind_ok (oldPhone : Option String) (uid : Nat) (al : Line) (s2 t : St)
    (ht : assignOperatorToLine s2 al.id uid = Except.ok t) :
    reallocBind oldPhone uid (some al, s2) =
      ({ success := true, oldLinePhone := oldPhone, newLinePhone := some al.phone
         newLineId := some al.id, reason := none }, t) := by
  simp only [reallocBind]
  rw [ht]



/-- Identity stand-in for `filterLinesByActiveEvolutions` (filters nothing). -/
def idFilter : List Line → Option Int → List Line := fun ls _ => ls

/-- Failing input for the default-segment fallback: operator 8 (segment 5,
no line), no active segment-5 line, and a free active line 30 in the
"Padrão" default segment (id 99). -/
def stC8 : St :=
  { lines := [⟨30, "5530", "active", some 99, none⟩]
    users := [⟨8, "O8", "operator", "Online", some 5, none⟩]
    lineOperators := []
    conversations := []
    segments := [⟨99, "Padrão"⟩]
    waitingQueue := []
    connTime := []
    now := 0 }

/-- C8: the default-segment fallback of `reallocateLineForOperator` is dead
code.  The default segment exists and holds an active line with no bindings,
and the requester's segment has no line, so by the spec the fallback should
bind line 30 and rewrite its segment tag to 5 — but
`findAvailableLineForOperator` skips every line whose non-null segment
differs from the requester's, which every default-segment line does, so
reallocation fails with "Nenhuma linha disponível" and the store is
untouched. -/
theorem fallback_segment_dead :
    activeSegmentLines stC8 (some 99) = [⟨30, "5530", "active", some 99, none⟩] ∧
    lineBindings stC8 30 = [] ∧
    stC8.segments.find? (fun sg => sg.name == "Padrão") = some ⟨99, "Padrão"⟩ ∧
    activeSegmentLines stC8 (some 5) = [] ∧
    reallocateLineForOperator idFilter stC8 8 (some 5) =
      (ReallocResult.fail "Nenhuma linha disponível", stC8) := by
  refine ⟨by decide, by decide, by decide, by decide, by rfl⟩



/-- Store with line 7 at full capacity (operators 4 and 5 bound). -/
def stFullLine : St :=
  { lines := [⟨7, "5507", "active", some 1, some 4⟩]
    users := [⟨4, "O4", "operator", "Online", some 1, some 7⟩,
              ⟨5, "O5", "operator", "Online", some 1, some 7⟩,
              ⟨6, "O6", "operator", "Online", some 1, none⟩]
    lineOperators := [⟨7, 4⟩, ⟨7, 5⟩]
    conversations := []
    segments := []
    waitingQueue := []
    connTime := []
    now := 0 }

theorem capacity_invariant_witness :
    (∃ e, assignOperatorToLine stFullLine 7 6 = Except.error e) ∧
    (lineBindings (applyAllocOps stFullLine [AllocOp.unbind 7 4, AllocOp.bind 7 6]) 7).length ≤ 2 :=
  ⟨(capacity_invariant stFullLine 7 (by decide)).1 6 (by decide),
   (capacity_invariant stFullLine 7 (by decide)).2 [AllocOp.unbind 7 4, AllocOp.bind 7 6]⟩

/-- Store where operator 1 holds line 10 and line 11 is free. -/
def stRebind : St :=
  { lines := [⟨10, "5510", "active", some 1, some 1⟩, ⟨11, "5511", "active", some 1, none⟩]
    users := [⟨1, "O1", "operator", "Online", some 1, some 10⟩]
    lineOperators := [⟨10, 1⟩]
    conversations := []
    segments := []
    waitingQueue := []
    connTime := []
    now := 0 }

/-- The store produced by `assignOperatorToLine stRebind 11 1`. -/
def stRebindPost : St :=
  { lines := [⟨10, "5510", "active", some 1, some 1⟩, ⟨11, "5511", "active", some 1, some 1⟩]
    users := [⟨1, "O1", "operator", "Online", some 1, some 11⟩]
    lineOperators := [⟨11, 1⟩]
    conversations := []
    segments := []
    waitingQueue := []
    connTime := []
    now := 0 }

theorem single_line_per_operator_witness :
    (LineOperator.mk 10 1 ∉ stRebindPost.lineOperators ∧
      LineOperator.mk 11 1 ∈ stRebindPost.lineOperators) ∧
    (operatorBindings (applyAllocOps stRebind [AllocOp.bind 11 1]) 1).length ≤ 1 :=
  ⟨(single_line_per_operator stRebind
      (fun _ => le_trans (List.length_filter_le _ stRebind.lineOperators) (by decide))).1
      11 1 10 stRebindPost (by decide) (by decide) (by rfl),
   (single_line_per_operator stRebind
      (fun _ => le_trans (List.length_filter_le _ stRebind.lineOperators) (by decide))).2
      [AllocOp.bind 11 1] 1⟩

theorem load_balanced_selection_witness :
    ∃ q ∈ (segmentOnlineOperators stC4 (some 1)).map (operatorPriority stC4),
      (distributeInboundMessage stC4 1 "p").1 = some q.operatorId ∧
      ((∃ r ∈ (segmentOnlineOperators stC4 (some 1)).map (operatorPriority stC4),
          r.activeConversations < 5) →
        (∀ r ∈ (segmentOnlineOperators stC4 (some 1)).map (operatorPriority stC4),
          q.activeConversations ≤ r.activeConversations) ∧
        (∀ r ∈ (segmentOnlineOperators stC4 (some 1)).map (operatorPriority stC4),
          r.activeConversations = q.activeConversations → r.timeLogged ≤ q.timeLogged)) ∧
      ((∀ r ∈ (segmentOnlineOperators stC4 (some 1)).map (operatorPriority stC4),
          5 ≤ r.activeConversations) →
        ∀ r ∈ (segmentOnlineOperators stC4 (some 1)).map (operatorPriority stC4),
          r.timeLogged ≤ q.timeLogged) :=
  load_balanced_selection stC4 1 "p" ⟨1, "5511", "active", some 1, none⟩
    (by decide) (by decide) (by decide) (by decide)

/-! ### C3: ban cascade -/

/-- The unlink phase only deletes the banned line's bindings from the link
table (`users` / `lines` rewrites touch other fields). -/
theorem bannedUnlink_lineOperators (s : St) (L : Nat) (ids : List Nat) :
    (bannedUnlink s L ids).lineOperators = s.lineOperators.filter (fun lo => !(lo.lineId == L)) :=
  rfl

/-- An operator whose only binding was to the banned line has none left
after the eviction phase. -/
theorem bannedUnlink_operatorBindings (s : St) (L : Nat) (ids : List Nat) (o : Nat)
    (ho : operatorBindings s o = [⟨L, o⟩]) :
    operatorBindings (bannedUnlink (bannedSetStatus s L) L ids) o = [] := by
  show ((s.lineOperators.filter fun lo => !(lo.lineId == L)).filter fun lo => lo.userId == o) = []
  rw [List.filter_comm]
  have h1 : s.lineOperators.filter (fun lo => lo.userId == o) = [⟨L, o⟩] := ho
  rw [h1]
  simp

/-- Both ban phases keep line ids (they only rewrite status / linkedTo). -/
theorem banned_lines_ids (s : St) (L : Nat) (ids : List Nat) :
    (bannedUnlink (bannedSetStatus s L) L ids).lines.map (fun x => x.id) =
      s.lines.map (fun x => x.id) := by
  show ((s.lines.map fun l => if l.id == L then { l with lineStatus := "ban" } else l).map
      fun l => if l.id == L then { l with linkedTo := none } else l).map (fun x => x.id) =
    s.lines.map (fun x => x.id)
  rw [List.map_map, List.map_map]
  apply List.map_congr_left
  intro a _
  simp only [Function.comp]
  by_cases h : a.id = L <;> simp [h]

/-- A line accepted by the inline replacement scan of `handleBannedLine` is
an active member of the banned line's segment with spare capacity. -/
theorem bannedReplacementScan_pred {s : St} {seg : Option Int} {u : User} {R : Line}
    (h : bannedReplacementScan s seg u = some R) :
    R ∈ s.lines ∧ R.lineStatus = "active" ∧ R.segment = seg ∧
    (lineBindings s R.id).length < 2 := by
  have hmem := List.mem_of_find?_eq_some h
  rw [List.mem_filter] at hmem
  have hf := hmem.2
  simp only [Bool.and_eq_true, beq_iff_eq] at hf
  have hpred := List.find?_some h
  simp only [Bool.and_eq_true, decide_eq_true_eq] at hpred
  exact ⟨hmem.1, hf.1, hf.2, hpred.1⟩

/-- An empty filter forces an empty find. -/
theorem find?_eq_none_of_filter_nil {α : Type} {p : α → Bool} {l : List α}
    (h : l.filter p = []) : l.find? p = none :=
  List.find?_eq_none.mpr (fun x hx => by
    have := List.filter_eq_nil_iff.mp h x hx
    simpa using this)

/-- The upsert only touches the waiting queue. -/
theorem waitingQueueUpsert_frame (s : St) (u : Nat) :
    (waitingQueueUpsert s u).conversations = s.conversations ∧
    (waitingQueueUpsert s u).lineOperators = s.lineOperators ∧
    (waitingQueueUpsert s u).lines = s.lines ∧
    (waitingQueueUpsert s u).users = s.users := by
  simp only [waitingQueueUpsert]
  split <;> exact ⟨rfl, rfl, rfl, rfl⟩

/-- After the upsert the operator is in the waiting queue. -/
theorem waitingQueueUpsert_mem (s : St) (u : Nat) :
    ∃ e ∈ (waitingQueueUpsert s u).waitingQueue, e.1 = u := by
  simp only [waitingQueueUpsert]
  split
  next hany =>
    obtain ⟨e, hemem, hep⟩ := List.any_eq_true.mp hany
    refine ⟨(e.1, s.now), ?_, by simpa using hep⟩
    have : (fun e2 : Nat × Nat => if e2.1 == u then (e2.1, s.now) else e2) e = (e.1, s.now) := by
      simp only [hep, if_pos]
    rw [← this]
    exact List.mem_map_of_mem _ hemem
  next hany =>
    exact ⟨(u, s.now), by simp, rfl⟩

/-- A banned-line operator with a replacement line is rebound to it and has
the open conversations of the banned line repointed at the new line. -/
theorem processBannedOperator_rebind {s : St} {L : Nat} {seg : Option Int} {o : Nat}
    {u : User} {R : Line} {t : St}
    (hu : findUser s o = some u)
    (hnb : operatorBindings s o = [])
    (hscan : bannedReplacementScan s seg u = some R)
    (ht : assignOperatorToLine s R.id o = Except.ok t) :
    processBannedOperator s L seg o =
      some { t with
        conversations := t.conversations.map (fun c =>
          if c.userId == some o && c.userLine == some L && c.tabulation == none then
            { c with userLine := some R.id }
          else c) } := by
  simp only [processBannedOperator]
  split
  next hfu => rw [hu] at hfu; cases hfu
  next u2 hfu =>
    rw [hu, Option.some.injEq] at hfu
    subst hfu
    rw [if_neg (by simp [hnb])]
    split
    next R2 hscan2 =>
      rw [hscan, Option.some.injEq] at hscan2
      subst hscan2
      split
      next e he => rw [ht] at he; cases he
      next t2 hok =>
        rw [ht, Except.ok.injEq] at hok
        subst hok
        rfl
    next hscan2 => rw [hscan] at hscan2; cases hscan2

/-- A banned-line operator with no replacement line has the open
conversations of the banned line force-closed with the -1 sentinel and is
enqueued. -/
theorem processBannedOperator_close {s : St} {L : Nat} {seg : Option Int} {o : Nat} {u : User}
    (hu : findUser s o = some u)
    (hnb : operatorBindings s o = [])
    (hscan : bannedReplacementScan s seg u = none) :
    processBannedOperator s L seg o =
      some (waitingQueueUpsert
        { s with
          conversations := s.conversations.map (fun c =>
            if c.userId == some o && c.userLine == some L && c.tabulation == none then
              { c with tabulation := some (-1) }
            else c) } o) := by
  simp only [processBannedOperator]
  split
  next hfu => rw [hu] at hfu; cases hfu
  next u2 hfu =>
    rw [hu, Option.some.injEq] at hfu
    subst hfu
    rw [if_neg (by simp [hnb])]
    split
    next R2 hscan2 => rw [hscan] at hscan2; cases hscan2
    next hscan2 => rfl

/-- With two bound operators, `handleBannedLine` takes the link-table path:
mark the line banned, evict both operators, then fold the per-operator
handler over them in binding order. -/
theorem handleBannedLine_two {s : St} {L : Nat} {line : Line} {o1 o2 : Nat}
    (hline : findLine s L = some line)
    (hbind : lineBindings s L = [⟨L, o1⟩, ⟨L, o2⟩]) :
    handleBannedLine s L =
      foldBannedOperators (bannedUnlink (bannedSetStatus s L) L [o1, o2]) L line.segment
        [o1, o2] := by
  simp only [handleBannedLine]
  split
  next h => rw [hline] at h; cases h
  next line2 h =>
    rw [hline, Option.some.injEq] at h
    subst h
    rw [hbind]
    rfl

/-- C3: ban cascade correctness.  Banning line L with operators o1 and o2
bound to it, where the handler's replacement scan finds line R for o1 but no
line for o2, rebinds o1 to R, repoints o1's open conversations of L at R,
force-closes o2's open conversations of L with the -1 sentinel, leaves o2
with no binding, and places o2 in the waiting queue. -/
theorem ban_cascade (s : St) (L : Nat) (line : Line) (o1 o2 : Nat) (u1 u2 : User)
    (R : Line) (sP : St)
    (hline : findLine s L = some line)
    (hnodup : (s.lines.map (fun x => x.id)).Nodup)
    (hbind : lineBindings s L = [⟨L, o1⟩, ⟨L, o2⟩])
    (hne : o1 ≠ o2)
    (ho1 : operatorBindings s o1 = [⟨L, o1⟩])
    (ho2 : operatorBindings s o2 = [⟨L, o2⟩])
    (hu1 : findUser (bannedUnlink (bannedSetStatus s L) L [o1, o2]) o1 = some u1)
    (hscan1 : bannedReplacementScan (bannedUnlink (bannedSetStatus s L) L [o1, o2])
        line.segment u1 = some R)
    (hsP : processBannedOperator (bannedUnlink (bannedSetStatus s L) L [o1, o2])
        L line.segment o1 = some sP)
    (hu2 : findUser sP o2 = some u2)
    (hscan2 : bannedReplacementScan sP line.segment u2 = none) :
    ∃ s3, handleBannedLine s L = some s3 ∧
      operatorBindings s3 o1 = [⟨R.id, o1⟩] ∧
      operatorBindings s3 o2 = [] ∧
      (∃ e ∈ s3.waitingQueue, e.1 = o2) ∧
      s3.conversations = s.conversations.map (fun c =>
        if c.userId == some o1 && c.userLine == some L && c.tabulation == none then
          { c with userLine := some R.id }
        else if c.userId == some o2 && c.userLine == some L && c.tabulation == none then
          { c with tabulation := some (-1) }
        else c) := by
  have hUB1 : operatorBindings (bannedUnlink (bannedSetStatus s L) L [o1, o2]) o1 = [] :=
    bannedUnlink_operatorBindings s L [o1, o2] o1 ho1
  have hUB2 : operatorBindings (bannedUnlink (bannedSetStatus s L) L [o1, o2]) o2 = [] :=
    bannedUnlink_operatorBindings s L [o1, o2] o2 ho2
  obtain ⟨hRmem, hRact, hRseg, hRcnt⟩ := bannedReplacementScan_pred hscan1
  have hRfind : findLine (bannedUnlink (bannedSetStatus s L) L [o1, o2]) R.id = some R :=
    findLine_of_mem hRmem (by rw [banned_lines_ids]; exact hnodup)
  have hnoO1 : ∀ x ∈ (bannedUnlink (bannedSetStatus s L) L [o1, o2]).lineOperators,
      (x.userId == o1) = false := by
    intro x hx
    by_contra hc
    have hxt : (x.userId == o1) = true := by simpa using hc
    have hmem : x ∈ operatorBindings (bannedUnlink (bannedSetStatus s L) L [o1, o2]) o1 :=
      List.mem_filter.mpr ⟨hx, hxt⟩
    rw [hUB1] at hmem
    cases hmem
  have hpair1 : ((bannedUnlink (bannedSetStatus s L) L [o1, o2]).lineOperators.any
      (fun lo => lo.lineId == R.id && lo.userId == o1)) = false := by
    rw [List.any_eq_false]
    intro x hx
    simp [hnoO1 x hx]
  obtain ⟨t, ht⟩ := assignOperatorToLine_ok_of hRfind hRact hRcnt hpair1
  have hsPd := @processBannedOperator_rebind _ L _ _ _ _ _ hu1 hUB1 hscan1 ht
  rw [hsPd, Option.some.injEq] at hsP
  obtain ⟨line2, base, hline2, _, _, _, hsub, htlo, hdisj, htusers, htlines, htconv,
    htseg, htwq, htct, htnow⟩ := assignOperatorToLine_ok_spec ht
  have hUB1f : (bannedUnlink (bannedSetStatus s L) L [o1, o2]).lineOperators.filter
      (fun lo => lo.userId == o1) = [] := hUB1
  have hfind1 : (bannedUnlink (bannedSetStatus s L) L [o1, o2]).lineOperators.find?
      (fun x => x.userId == o1) = none :=
    find?_eq_none_of_filter_nil hUB1f
  have hbase : base = (bannedUnlink (bannedSetStatus s L) L [o1, o2]).lineOperators := by
    rcases hdisj with ⟨_, hb⟩ | ⟨lo0, hf, _, _⟩ | ⟨lo0, hf, _, _⟩
    · exact hb
    · rw [hfind1] at hf; cases hf
    · rw [hfind1] at hf; cases hf
  rw [hbase] at htlo
  have hsPd2 : processBannedOperator (bannedUnlink (bannedSetStatus s L) L [o1, o2])
      L line.segment o1 = some sP := by rw [hsPd, hsP]
  have hPlo : sP.lineOperators =
      (bannedUnlink (bannedSetStatus s L) L [o1, o2]).lineOperators ++
        [LineOperator.mk R.id o1] := by
    rw [← hsP]
    exact htlo
  have hPconv : sP.conversations = t.conversations.map (fun c =>
      if c.userId == some o1 && c.userLine == some L && c.tabulation == none then
        { c with userLine := some R.id }
      else c) := by
    rw [← hsP]
  have hPB2 : operatorBindings sP o2 = [] := by
    show sP.lineOperators.filter (fun lo => lo.userId == o2) = []
    rw [hPlo, List.filter_append]
    have h2 : (bannedUnlink (bannedSetStatus s L) L [o1, o2]).lineOperators.filter
        (fun lo => lo.userId == o2) = [] := hUB2
    rw [h2]
    simp [hne]
  refine ⟨waitingQueueUpsert
      { sP with conversations := sP.conversations.map (fun c =>
          if c.userId == some o2 && c.userLine == some L && c.tabulation == none then
            { c with tabulation := some (-1) }
          else c) } o2, ?_, ?_, ?_, ?_, ?_⟩
  · rw [handleBannedLine_two hline hbind]
    show (match processBannedOperator (bannedUnlink (bannedSetStatus s L) L [o1, o2]) L
        line.segment o1 with
      | none => none
      | some s1 => foldBannedOperators s1 L line.segment [o2]) = _
    rw [hsPd2]
    show (match processBannedOperator sP L line.segment o2 with
      | none => none
      | some s1 => foldBannedOperators s1 L line.segment []) = _
    rw [processBannedOperator_close hu2 hPB2 hscan2]
    rfl
  · simp only [operatorBindings]
    rw [(waitingQueueUpsert_frame _ o2).2.1]
    show (sP.lineOperators.filter fun lo => lo.userId == o1) = _
    rw [hPlo, List.filter_append, hUB1f]
    simp
  · simp only [operatorBindings]
    rw [(waitingQueueUpsert_frame _ o2).2.1]
    exact hPB2
  · exact waitingQueueUpsert_mem _ o2
  · rw [(waitingQueueUpsert_frame _ o2).1]
    show (sP.conversations.map fun c =>
        if c.userId == some o2 && c.userLine == some L && c.tabulation == none then
          { c with tabulation := some (-1) }
        else c) = _
    rw [hPconv, List.map_map]
    have hTS : t.conversations = s.conversations := htconv
    rw [hTS]
    apply List.map_congr_left
    intro c _
    simp only [Function.comp]
    by_cases h1 : (c.userId == some o1 && c.userLine == some L && c.tabulation == none) = true
    · have hcu : c.userId = some o1 := by
        simp only [Bool.and_eq_true, beq_iff_eq] at h1
        exact h1.1.1
      simp only [if_pos h1]
      simp [hcu, hne]
    · rw [if_neg h1, if_neg h1]

/-- A store where banning line 40 must rebind operator 21 (segment 1, for
which active line 41 qualifies) and force-close operator 22 (segment 2, for
which no line qualifies). -/
def stC3 : St :=
  { lines := [⟨40, "+551140", "active", some 1, some 21⟩,
              ⟨41, "+551141", "active", some 1, none⟩],
    users := [⟨21, "ana", "operator", "Online", some 1, some 40⟩,
              ⟨22, "bia", "operator", "Online", some 2, some 40⟩],
    lineOperators := [⟨40, 21⟩, ⟨40, 22⟩],
    conversations := [⟨1, "5511900", some 1, "ana", some 40, some 21, "oi", "contact", none, 100⟩,
                      ⟨2, "5511901", some 2, "bia", some 40, some 22, "ola", "contact", none, 110⟩,
                      ⟨3, "5511902", some 1, "ana", some 40, some 21, "fim", "contact", some 7, 90⟩],
    segments := [⟨1, "Vendas"⟩, ⟨2, "Suporte"⟩],
    waitingQueue := [],
    connTime := [],
    now := 500 }

/-- The store after the cascade has processed operator 21 (rebound to line
41, conversation 1 repointed). -/
def stC3sP : St :=
  { lines := [⟨40, "+551140", "ban", some 1, none⟩,
              ⟨41, "+551141", "active", some 1, some 21⟩],
    users := [⟨21, "ana", "operator", "Online", some 1, some 41⟩,
              ⟨22, "bia", "operator", "Online", some 2, none⟩],
    lineOperators := [⟨41, 21⟩],
    conversations := [⟨1, "5511900", some 1, "ana", some 41, some 21, "oi", "contact", none, 100⟩,
                      ⟨2, "5511901", some 2, "bia", some 40, some 22, "ola", "contact", none, 110⟩,
                      ⟨3, "5511902", some 1, "ana", some 40, some 21, "fim", "contact", some 7, 90⟩],
    segments := [⟨1, "Vendas"⟩, ⟨2, "Suporte"⟩],
    waitingQueue := [],
    connTime := [],
    now := 500 }

/-- Concrete run of the ban cascade on `stC3`: operator 21 is rebound to
line 41 and operator 22 is force-closed and enqueued. -/
theorem ban_cascade_witness :
    ∃ s3, handleBannedLine stC3 40 = some s3 ∧
      operatorBindings s3 21 = [⟨41, 21⟩] ∧
      operatorBindings s3 22 = [] ∧
      (∃ e ∈ s3.waitingQueue, e.1 = 22) ∧
      s3.conversations = stC3.conversations.map (fun c =>
        if c.userId == some 21 && c.userLine == some 40 && c.tabulation == none then
          { c with userLine := some 41 }
        else if c.userId == some 22 && c.userLine == some 40 && c.tabulation == none then
          { c with tabulation := some (-1) }
        else c) :=
  ban_cascade stC3 40 ⟨40, "+551140", "active", some 1, some 21⟩ 21 22
    ⟨21, "ana", "operator", "Online", some 1, none⟩
    ⟨22, "bia", "operator", "Online", some 2, none⟩
    ⟨41, "+551141", "active", some 1, none⟩
    stC3sP
    (by rfl) (by decide) (by rfl) (by decide) (by rfl) (by rfl) (by rfl) (by rfl) (by rfl)
    (by rfl) (by rfl)

end OficialVend
